import Mathlib

/-!
Shallow embedding of the type-resolution core of `glin-forge`
(`src/codegen/type_resolver.rs`).

The Rust module converts ink! contract metadata (a scale-info style JSON
type registry) into TypeScript type descriptions.  We model:

* `Json` — the fragment of `serde_json::Value` the resolver consumes
  (numbers are modelled as integers, which covers every value the
  resolver inspects with `as_u64`);
* `TypeScriptType` / `UnionVariant` — the Rust output enums;
* `ResolverState` — the three mutable fields of `TypeResolver`
  (`types`, `resolved_cache`, `resolving_stack`), as association lists /
  a list acting as a set, with the same observable lookup behaviour as
  `HashMap` / `HashSet` (`new` inserts by prepending, so a later entry
  with a duplicate id shadows an earlier one, exactly like
  `HashMap::insert`); the `named_types` field is never written by the
  resolution code and is omitted;
* the mutually recursive `resolve_*` functions, in state-passing style.
  Errors are modelled with `Except`; crucially the state is returned on
  the error path as well, because the Rust methods mutate `self` in
  place and the `?` operator does not roll anything back.

Rust guarantees termination of the recursion through `resolving_stack`;
the Lean embedding makes the recursion structural with a `fuel`
parameter.  Each function consumes one unit of fuel on entry and passes
the decremented value to every callee; running out of fuel produces the
artificial error `ResolveError.fuelExhausted`, which corresponds to no
behaviour of the source and never occurs when enough fuel is supplied
(all concrete evaluations below use explicit, sufficient fuel, and the
universally quantified theorems hold for every fuel value).
-/

namespace GlinForge

/-- Model of `serde_json::Value` restricted to what the resolver reads.
Numbers are integers (`as_u64` is only ever called on integral values). -/
inductive Json where
  | null : Json
  | bool (b : Bool) : Json
  | num (n : Int) : Json
  | str (s : String) : Json
  | arr (elems : List Json) : Json
  | obj (fields : List (String × Json)) : Json

/-- `value[key]` indexing on `&serde_json::Value`: yields `Null` when the
value is not an object or the key is missing. -/
def Json.index : Json → String → Json
  | .obj fields, key =>
    match fields.lookup key with
    | some v => v
    | none => .null
  | _, _ => .null

/-- `value.get(key)`: `Option`-returning object lookup. -/
def Json.getKey : Json → String → Option Json
  | .obj fields, key => fields.lookup key
  | _, _ => none

/-- `Value::as_array`. -/
def Json.asArray : Json → Option (List Json)
  | .arr elems => some elems
  | _ => none

/-- `Value::as_str`. -/
def Json.asStr : Json → Option String
  | .str s => some s
  | _ => none

/-- `Value::as_u64`: succeeds exactly on integers representable as `u64`. -/
def Json.asU64 : Json → Option Nat
  | .num n => if 0 ≤ n ∧ n < 18446744073709551616 then some n.toNat else none
  | _ => none

/-- `Value::is_null`. -/
def Json.isNull : Json → Bool
  | .null => true
  | _ => false

/-- The Rust `as u32` cast: truncation modulo `2^32`. -/
def toU32 (n : Nat) : Nat := n % 4294967296

/-- The Rust enum `TypeScriptType`. -/
inductive TypeScriptType where
  | primitive (s : String) : TypeScriptType
  | interface (name : String) (fields : List (String × TypeScriptType))
      (docs : List String) : TypeScriptType
  | union (name : String)
      (variants : List (String × List (Option String × TypeScriptType) × List String))
      (docs : List String) : TypeScriptType
  | array (inner : TypeScriptType) : TypeScriptType
  | tuple (elems : List TypeScriptType) : TypeScriptType
  | or (alts : List TypeScriptType) : TypeScriptType
  | optional (inner : TypeScriptType) : TypeScriptType
  | reference (name : String) : TypeScriptType
  | any : TypeScriptType

/-- A variant of a discriminated union (the Rust struct `UnionVariant`,
flattened to a triple `(name, fields, docs)`). -/
def mkVariant (name : String) (fields : List (Option String × TypeScriptType)) :
    String × List (Option String × TypeScriptType) × List String :=
  (name, fields, [])

/-- Errors of the resolver.  The Rust code uses `anyhow` errors carrying
the context strings reproduced here as constructor names;
`fuelExhausted` is the artefact of the fuel-based embedding (see the
module comment) and corresponds to no source behaviour. -/
inductive ResolveError where
  | fuelExhausted : ResolveError
  | typesNotArray : ResolveError
  | typeEntryMissingId : ResolveError
  | typeNotFound (id : Nat) : ResolveError
  | compositeMissingFields : ResolveError
  | namedFieldMissingName : ResolveError
  | fieldMissingType : ResolveError
  | variantMissingVariants : ResolveError
  | variantMissingName : ResolveError
  | sequenceMissingType : ResolveError
  | arrayMissingType : ResolveError
  | tupleNotArray : ResolveError
  | invalidTypeId : ResolveError
  | compactMissingType : ResolveError
deriving DecidableEq

/-- The mutable state of the Rust struct `TypeResolver`. -/
structure ResolverState where
  types : List (Nat × Json)
  resolved_cache : List (Nat × TypeScriptType)
  resolving_stack : List Nat

/-- Builds the `types` map of `TypeResolver::new`: each entry must have an
`id` readable by `as_u64` (then cast `as u32`, i.e. truncated); the
`type` field is taken by JSON indexing (`Null` when absent).  Prepending
gives the `HashMap::insert` shadowing behaviour under `List.lookup`. -/
def buildTypes : List Json → List (Nat × Json) →
    Except ResolveError (List (Nat × Json))
  | [], acc => .ok acc
  | entry :: rest, acc =>
    match (entry.index "id").asU64 with
    | none => .error .typeEntryMissingId
    | some n => buildTypes rest ((toU32 n, entry.index "type") :: acc)

/-- `TypeResolver::new`. -/
def TypeResolver.new (types_array : Json) : Except ResolveError ResolverState :=
  match types_array.asArray with
  | none => .error .typesNotArray
  | some types_vec =>
    match buildTypes types_vec [] with
    | .error e => .error e
    | .ok types => .ok ⟨types, [], []⟩

/-- The `path` extraction in `resolve_type_def`: the `path` key as an
array, keeping only string elements, defaulting to the empty list. -/
def pathOf (type_def : Json) : List String :=
  match (type_def.index "path").asArray with
  | some elems => elems.filterMap Json.asStr
  | none => []

/-- `path.join("::")`. -/
def joinPath (path : List String) : String := String.intercalate "::" path

/-- Substring search on character lists (used to model `str::contains`). -/
def charsContain : List Char → List Char → Bool
  | _, [] => true
  | [], _ :: _ => false
  | a :: t, sub => sub.isPrefixOf (a :: t) || charsContain t sub

/-- `str::contains` for string patterns. -/
def strContains (s sub : String) : Bool := charsContain s.data sub.data

/-- The `matches!(inner, TypeScriptType::Primitive(ref p) if p == "number")`
test used by `resolve_sequence` and `resolve_array`. -/
def isNumberPrim : TypeScriptType → Bool
  | .primitive p => p == "number"
  | _ => false

/-- The generic-parameter extraction `params.get(i).and_then(|p| p["type"].as_u64())`
used by the well-known-type overrides (`first()` is `get(0)`). -/
def paramType : List Json → Nat → Option Nat
  | [], _ => none
  | p :: _, 0 => (p.index "type").asU64
  | _ :: rest, i + 1 => paramType rest i

/-- The synthetic-name rule for composites: the last path segment, or
`Struct{arity}` when the path is empty. -/
def structName (path : List String) (arity : Nat) : String :=
  match path.getLast? with
  | none => "Struct" ++ toString arity
  | some last => last

/-- The synthetic-name rule for variants: the last path segment, or
`Enum{arity}` when the path is empty. -/
def enumName (path : List String) (arity : Nat) : String :=
  match path.getLast? with
  | none => "Enum" ++ toString arity
  | some last => last

/-- `TypeResolver::resolve_primitive` (pure, never fails in the source). -/
def resolve_primitive (primitive : String) : Except ResolveError TypeScriptType :=
  if primitive = "bool" then .ok (.primitive "boolean")
  else if primitive = "char" then .ok (.primitive "string")
  else if primitive = "str" then .ok (.primitive "string")
  else if primitive = "u8" ∨ primitive = "u16" ∨ primitive = "u32" ∨
      primitive = "i8" ∨ primitive = "i16" ∨ primitive = "i32" then
    .ok (.primitive "number")
  else if primitive = "u64" ∨ primitive = "u128" ∨ primitive = "u256" ∨
      primitive = "i64" ∨ primitive = "i128" ∨ primitive = "i256" then
    .ok (.or [.primitive "string", .primitive "number", .primitive "bigint"])
  else .ok (.primitive "any")

mutual

/-- `TypeResolver::resolve_type`.  The memo check and the cycle guard
happen before any recursion (and before the fuel check, so those two
branches are fuel-independent, as in the source); on the error path the
pushed id stays on `resolving_stack` and nothing is cached, because the
Rust `?` operator returns with `self` already mutated. -/
def resolve_type (fuel : Nat) (st : ResolverState) (type_id : Nat) :
    Except ResolveError TypeScriptType × ResolverState :=
  match st.resolved_cache.lookup type_id with
  | some cached => (.ok cached, st)
  | none =>
    if st.resolving_stack.contains type_id then
      (.ok .any, st)
    else
      let st1 : ResolverState :=
        { st with resolving_stack := type_id :: st.resolving_stack }
      match fuel with
      | 0 => (.error .fuelExhausted, st1)
      | f + 1 =>
        match st1.types.lookup type_id with
        | none => (.error (.typeNotFound type_id), st1)
        | some type_def =>
          match resolve_type_def f st1 type_def with
          | (.error e, st2) => (.error e, st2)
          | (.ok result, st2) =>
            (.ok result,
             { st2 with
               resolving_stack := st2.resolving_stack.erase type_id,
               resolved_cache := (type_id, result) :: st2.resolved_cache })
termination_by structural fuel

/-- `TypeResolver::resolve_type_def`: well-known-path override first
(only when the path is non-empty), then dispatch on the `def` variant,
falling back to `Any`. -/
def resolve_type_def : Nat → ResolverState → Json →
    Except ResolveError TypeScriptType × ResolverState
  | 0, st, _ => (.error .fuelExhausted, st)
  | f + 1, st, type_def =>
    let path := pathOf type_def
    let d := type_def.index "def"
    match
      (if path.isEmpty then (.ok none, st)
       else resolve_well_known_type f st path type_def) with
    | (.error e, st') => (.error e, st')
    | (.ok (some t), st') => (.ok t, st')
    | (.ok none, st1) =>
      match (d.getKey "primitive").bind Json.asStr with
      | some primitive =>
        match resolve_primitive primitive with
        | .ok t => (.ok t, st1)
        | .error e => (.error e, st1)
      | none =>
      match d.getKey "composite" with
      | some composite => resolve_composite f st1 composite path
      | none =>
      match d.getKey "variant" with
      | some variant => resolve_variant f st1 variant path
      | none =>
      match d.getKey "sequence" with
      | some sequence => resolve_sequence f st1 sequence
      | none =>
      match d.getKey "array" with
      | some array => resolve_array f st1 array
      | none =>
      match d.getKey "tuple" with
      | some tuple => resolve_tuple f st1 tuple
      | none =>
      match d.getKey "compact" with
      | some compact => resolve_compact f st1 compact
      | none =>
      match d.getKey "bitSequence" with
      | some _ => (.ok (.reference "Uint8Array"), st1)
      | none => (.ok .any, st1)
termination_by structural fuel _ _ => fuel

/-- `TypeResolver::resolve_well_known_type`: matched in source order on
`path.join("::")`; `Ok(None)` means "not overridden, use the structural
definition". -/
def resolve_well_known_type : Nat → ResolverState → List String → Json →
    Except ResolveError (Option TypeScriptType) × ResolverState
  | 0, st, _, _ => (.error .fuelExhausted, st)
  | f + 1, st, path, type_def =>
    let path_str := joinPath path
    if path_str = "Option" then
      resolve_option_override f st type_def
    else if path_str = "Result" then
      resolve_result_override f st type_def
    else if path_str = "Vec" ∨ path_str = "BTreeMap" ∨ path_str = "BTreeSet" then
      (.ok none, st)
    else if path_str = "String" then
      (.ok (some (.primitive "string")), st)
    else if strContains path_str "AccountId" then
      (.ok (some (.primitive "string")), st)
    else if strContains path_str "Balance" then
      (.ok (some (.or [.primitive "string", .primitive "number",
        .primitive "bigint"])), st)
    else if strContains path_str "Hash" then
      (.ok (some (.or [.primitive "string", .reference "Uint8Array"])), st)
    else (.ok none, st)
termination_by structural fuel _ _ _ => fuel

/-- The `"Option"` arm of `resolve_well_known_type`: `Optional` of the
first generic parameter's resolution, or the `Any | null` fallback when
the parameter is missing. -/
def resolve_option_override : Nat → ResolverState → Json →
    Except ResolveError (Option TypeScriptType) × ResolverState
  | 0, st, _ => (.error .fuelExhausted, st)
  | f + 1, st, type_def =>
    match (type_def.index "params").asArray with
    | some params =>
      match paramType params 0 with
      | some inner_type_id =>
        match resolve_type f st (toU32 inner_type_id) with
        | (.error e, st') => (.error e, st')
        | (.ok inner, st') => (.ok (some (.optional inner)), st')
      | none => (.ok (some (.or [.any, .primitive "null"])), st)
    | none => (.ok (some (.or [.any, .primitive "null"])), st)
termination_by structural fuel _ _ => fuel

/-- One parameter slot of the `Result` override: resolve the extracted
type id, or degrade the slot to `Any` when the parameter is missing. -/
def result_param_resolve : Nat → ResolverState → Option Nat →
    Except ResolveError TypeScriptType × ResolverState
  | _, st, none => (.ok .any, st)
  | 0, st, some _ => (.error .fuelExhausted, st)
  | f + 1, st, some tid => resolve_type f st (toU32 tid)
termination_by structural fuel _ _ => fuel

/-- The second half of the `Result` override: resolve the `Err` slot and
assemble the two-variant Union, the already-resolved `Ok` slot being
passed in. -/
def resolve_result_snd : Nat → ResolverState → List Json → TypeScriptType →
    Except ResolveError (Option TypeScriptType) × ResolverState
  | 0, st, _, _ => (.error .fuelExhausted, st)
  | f + 1, st1, params, ok_type =>
    match result_param_resolve f st1 (paramType params 1) with
    | (.error e, st') => (.error e, st')
    | (.ok err_type, st2) =>
      (.ok (some (.union "Result"
        [mkVariant "Ok" [(some "value", ok_type)],
         mkVariant "Err" [(some "error", err_type)]] [])), st2)
termination_by structural fuel _ _ _ => fuel

/-- The first half of the `Result` override: resolve the `Ok` slot, then
hand over to `resolve_result_snd`. -/
def resolve_result_fst : Nat → ResolverState → List Json →
    Except ResolveError (Option TypeScriptType) × ResolverState
  | 0, st, _ => (.error .fuelExhausted, st)
  | f + 1, st, params =>
    match result_param_resolve f st (paramType params 0) with
    | (.error e, st') => (.error e, st')
    | (.ok ok_type, st1) => resolve_result_snd f st1 params ok_type
termination_by structural fuel _ _ => fuel

/-- The `"Result"` arm of `resolve_well_known_type`: a two-variant Union
named `Result`, a missing parameter slot degrading to `Any`; absent
`params` falls through (`Ok none`) to the structural variant handling. -/
def resolve_result_override : Nat → ResolverState → Json →
    Except ResolveError (Option TypeScriptType) × ResolverState
  | 0, st, _ => (.error .fuelExhausted, st)
  | f + 1, st, type_def =>
    match (type_def.index "params").asArray with
    | none => (.ok none, st)
    | some params => resolve_result_fst f st params
termination_by structural fuel _ _ => fuel

/-- `TypeResolver::resolve_composite`: all-unnamed fields become a tuple
(a single unnamed field is unwrapped, not a 1-tuple); otherwise a named
interface. -/
def resolve_composite : Nat → ResolverState → Json → List String →
    Except ResolveError TypeScriptType × ResolverState
  | 0, st, _, _ => (.error .fuelExhausted, st)
  | f + 1, st, composite, path =>
    match (composite.index "fields").asArray with
    | none => (.error .compositeMissingFields, st)
    | some fields_array =>
      let is_tuple := fields_array.all fun fld =>
        (fld.getKey "name").isNone || (fld.index "name").isNull
      if is_tuple then
        match resolve_field_types f st fields_array with
        | (.error e, st') => (.error e, st')
        | (.ok tuple_types, st') =>
          match tuple_types with
          | [single] => (.ok single, st')
          | _ => (.ok (.tuple tuple_types), st')
      else
        match resolve_named_fields f st fields_array with
        | (.error e, st') => (.error e, st')
        | (.ok fields, st') =>
          (.ok (.interface (structName path fields.length) fields []), st')
termination_by structural fuel _ _ _ => fuel

/-- The loop of the tuple branch of `resolve_composite`: each field needs
a `type` id, resolved in order. -/
def resolve_field_types : Nat → ResolverState → List Json →
    Except ResolveError (List TypeScriptType) × ResolverState
  | _, st, [] => (.ok [], st)
  | 0, st, _ :: _ => (.error .fuelExhausted, st)
  | f + 1, st, field :: rest =>
      match (field.index "type").asU64 with
      | none => (.error .fieldMissingType, st)
      | some tid =>
        match resolve_type f st (toU32 tid) with
        | (.error e, st') => (.error e, st')
        | (.ok t, st1) =>
          match resolve_field_types f st1 rest with
          | (.error e, st') => (.error e, st')
          | (.ok ts, st2) => (.ok (t :: ts), st2)
termination_by structural fuel _ _ => fuel

/-- The loop of the named-struct branch of `resolve_composite`: each
field needs a string `name` and a `type` id. -/
def resolve_named_fields : Nat → ResolverState → List Json →
    Except ResolveError (List (String × TypeScriptType)) × ResolverState
  | _, st, [] => (.ok [], st)
  | 0, st, _ :: _ => (.error .fuelExhausted, st)
  | f + 1, st, field :: rest =>
      match (field.index "name").asStr with
      | none => (.error .namedFieldMissingName, st)
      | some name =>
        match (field.index "type").asU64 with
        | none => (.error .fieldMissingType, st)
        | some tid =>
          match resolve_type f st (toU32 tid) with
          | (.error e, st') => (.error e, st')
          | (.ok t, st1) =>
            match resolve_named_fields f st1 rest with
            | (.error e, st') => (.error e, st')
            | (.ok fs, st2) => (.ok ((name, t) :: fs), st2)
termination_by structural fuel _ _ => fuel

/-- `TypeResolver::resolve_variant`: a named union; name synthesis as for
composites but with an `Enum` arity prefix. -/
def resolve_variant : Nat → ResolverState → Json → List String →
    Except ResolveError TypeScriptType × ResolverState
  | 0, st, _, _ => (.error .fuelExhausted, st)
  | f + 1, st, variant, path =>
    match (variant.index "variants").asArray with
    | none => (.error .variantMissingVariants, st)
    | some variants_array =>
      match resolve_variants f st variants_array with
      | (.error e, st') => (.error e, st')
      | (.ok variants, st') =>
        (.ok (.union (enumName path variants.length) variants []), st')
termination_by structural fuel _ _ _ => fuel

/-- The outer loop of `resolve_variant`: each variant needs a string
`name`; its `fields` array is optional (absent means no fields). -/
def resolve_variants : Nat → ResolverState → List Json →
    Except ResolveError
      (List (String × List (Option String × TypeScriptType) × List String)) ×
      ResolverState
  | _, st, [] => (.ok [], st)
  | 0, st, _ :: _ => (.error .fuelExhausted, st)
  | f + 1, st, var :: rest =>
      match (var.index "name").asStr with
      | none => (.error .variantMissingName, st)
      | some name =>
        match variant_fields_step f st var with
        | (.error e, st') => (.error e, st')
        | (.ok fields, st1) =>
          match resolve_variants f st1 rest with
          | (.error e, st') => (.error e, st')
          | (.ok vs, st2) => (.ok ((name, fields, []) :: vs), st2)
termination_by structural fuel _ _ => fuel

/-- The per-variant `fields` extraction of `resolve_variants`: an absent
`fields` array means a field-less variant. -/
def variant_fields_step : Nat → ResolverState → Json →
    Except ResolveError (List (Option String × TypeScriptType)) ×
      ResolverState
  | 0, st, _ => (.error .fuelExhausted, st)
  | f + 1, st, var =>
    match (var.index "fields").asArray with
    | none => (.ok [], st)
    | some fields_array =>
      resolve_variant_fields f st fields_array.length 0 fields_array
termination_by structural fuel _ _ => fuel

/-- The inner loop of `resolve_variant`: an unnamed single field is
labelled `value`, several unnamed fields `field0, field1, …`. -/
def resolve_variant_fields : Nat → ResolverState → Nat → Nat → List Json →
    Except ResolveError (List (Option String × TypeScriptType)) ×
      ResolverState
  | _, st, _, _, [] => (.ok [], st)
  | 0, st, _, _, _ :: _ => (.error .fuelExhausted, st)
  | f + 1, st, total, idx, field :: rest =>
      let field_name := (field.index "name").asStr
      match (field.index "type").asU64 with
      | none => (.error .fieldMissingType, st)
      | some tid =>
        match resolve_type f st (toU32 tid) with
        | (.error e, st') => (.error e, st')
        | (.ok ft, st1) =>
          let name :=
            match field_name with
            | some s => some s
            | none =>
              if total == 1 then some "value"
              else some ("field" ++ toString idx)
          match resolve_variant_fields f st1 total (idx + 1) rest with
          | (.error e, st') => (.error e, st')
          | (.ok fs, st2) => (.ok ((name, ft) :: fs), st2)
termination_by structural fuel _ _ _ _ => fuel

/-- `TypeResolver::resolve_sequence`: `Vec<u8>`-shaped sequences (element
resolving to the `number` primitive) become `Uint8Array | string`. -/
def resolve_sequence : Nat → ResolverState → Json →
    Except ResolveError TypeScriptType × ResolverState
  | 0, st, _ => (.error .fuelExhausted, st)
  | f + 1, st, sequence =>
    match (sequence.index "type").asU64 with
    | none => (.error .sequenceMissingType, st)
    | some tid =>
      match resolve_type f st (toU32 tid) with
      | (.error e, st') => (.error e, st')
      | (.ok inner, st') =>
        if isNumberPrim inner then
          (.ok (.or [.reference "Uint8Array", .primitive "string"]), st')
        else (.ok (.array inner), st')
termination_by structural fuel _ _ => fuel

/-- `TypeResolver::resolve_array`: length 32 with a `number`-primitive
element gives `Uint8Array | string`; any other fixed array becomes an
array type with the length dropped. -/
def resolve_array : Nat → ResolverState → Json →
    Except ResolveError TypeScriptType × ResolverState
  | 0, st, _ => (.error .fuelExhausted, st)
  | f + 1, st, array =>
    match (array.index "type").asU64 with
    | none => (.error .arrayMissingType, st)
    | some tid =>
      match resolve_type f st (toU32 tid) with
      | (.error e, st') => (.error e, st')
      | (.ok inner, st') =>
        if ((array.index "len").asU64).getD 0 == 32 && isNumberPrim inner then
          (.ok (.or [.reference "Uint8Array", .primitive "string"]), st')
        else (.ok (.array inner), st')
termination_by structural fuel _ _ => fuel

/-- `TypeResolver::resolve_tuple`: the empty tuple is `void`. -/
def resolve_tuple : Nat → ResolverState → Json →
    Except ResolveError TypeScriptType × ResolverState
  | 0, st, _ => (.error .fuelExhausted, st)
  | f + 1, st, tuple =>
    match tuple.asArray with
    | none => (.error .tupleNotArray, st)
    | some type_ids =>
      if type_ids.isEmpty then (.ok (.primitive "void"), st)
      else
        match resolve_tuple_ids f st type_ids with
        | (.error e, st') => (.error e, st')
        | (.ok types, st') => (.ok (.tuple types), st')
termination_by structural fuel _ _ => fuel

/-- The loop of `resolve_tuple`: each element must be a `u64` id. -/
def resolve_tuple_ids : Nat → ResolverState → List Json →
    Except ResolveError (List TypeScriptType) × ResolverState
  | _, st, [] => (.ok [], st)
  | 0, st, _ :: _ => (.error .fuelExhausted, st)
  | f + 1, st, idv :: rest =>
      match idv.asU64 with
      | none => (.error .invalidTypeId, st)
      | some tid =>
        match resolve_type f st (toU32 tid) with
        | (.error e, st') => (.error e, st')
        | (.ok t, st1) =>
          match resolve_tuple_ids f st1 rest with
          | (.error e, st') => (.error e, st')
          | (.ok ts, st2) => (.ok (t :: ts), st2)
termination_by structural fuel _ _ => fuel

/-- `TypeResolver::resolve_compact`: transparent passthrough. -/
def resolve_compact : Nat → ResolverState → Json →
    Except ResolveError TypeScriptType × ResolverState
  | 0, st, _ => (.error .fuelExhausted, st)
  | f + 1, st, compact =>
    match (compact.index "type").asU64 with
    | none => (.error .compactMissingType, st)
    | some tid => resolve_type f st (toU32 tid)
termination_by structural fuel _ _ => fuel

end

/-! ### Fixtures and auxiliary definitions used by the theorems -/

/-- The scale-info definition of the primitive `u32`. -/
def tdU32 : Json := .obj [("def", .obj [("primitive", .str "u32")])]

/-- The spec scenario's `type 0`:
`{path: ["Option"], def: {variant: {variants: [None, Some]}}, params: [{type: 1}]}`. -/
def tdOpt : Json := .obj [
  ("path", .arr [.str "Option"]),
  ("def", .obj [("variant", .obj [("variants", .arr [
      .obj [("name", .str "None"), ("index", .num 0)],
      .obj [("name", .str "Some"), ("fields", .arr [.obj [("type", .num 1)]]),
            ("index", .num 1)]])])]),
  ("params", .arr [.obj [("name", .str "T"), ("type", .num 1)]])]

/-- The same `Option` type with the `params` key omitted. -/
def tdOptNoParams : Json := .obj [
  ("path", .arr [.str "Option"]),
  ("def", .obj [("variant", .obj [("variants", .arr [
      .obj [("name", .str "None"), ("index", .num 0)],
      .obj [("name", .str "Some"), ("fields", .arr [.obj [("type", .num 1)]]),
            ("index", .num 1)]])])])]

/-- Metadata `types` array: 0 = `Option<u32>`, 1 = `u32`,
2 = `Option` without params. -/
def optMeta : Json := .arr [
  .obj [("id", .num 0), ("type", tdOpt)],
  .obj [("id", .num 1), ("type", tdU32)],
  .obj [("id", .num 2), ("type", tdOptNoParams)]]

/-- The registry `TypeResolver::new` builds from `optMeta`. -/
def optState : ResolverState :=
  ⟨[(2, tdOptNoParams), (1, tdU32), (0, tdOpt)], [], []⟩

/-- A "newtype" type definition: a composite with a single unnamed field
referencing type `x` (no path). -/
def mkRefTd (x : Nat) : Json :=
  .obj [("def", .obj [("composite", .obj [("fields",
    .arr [.obj [("type", .num x)]])])])]

/-- A generic parameter entry `{type: t}` as it appears in `params`. -/
def mkParam (t : Nat) : Json := .obj [("type", .num t)]

/-- A type definition with path `["Result"]` and the given `params`
array. -/
def mkResultTd (params : List Json) : Json :=
  .obj [("path", .arr [.str "Result"]), ("params", .arr params)]

/-- A composite type definition whose fields are all unnamed, referencing
the given type ids in order. -/
def mkCompositeUnnamed (xs : List Nat) : Json :=
  .obj [("fields", .arr (xs.map fun x => .obj [("type", .num x)]))]

/-- A composite type definition with named fields. -/
def mkCompositeNamed (fs : List (String × Nat)) : Json :=
  .obj [("fields", .arr (fs.map fun p =>
    .obj [("name", .str p.1), ("type", .num p.2)]))]

/-- A fixed-array type definition `[type x; len]`. -/
def mkArrayTd (x len : Nat) : Json :=
  .obj [("len", .num len), ("type", .num x)]

/-- Registry containing `0 = [u32; 32]` and `1 = u32`. -/
def arrState : ResolverState := ⟨[
  (0, .obj [("def", .obj [("array", mkArrayTd 1 32)])]),
  (1, tdU32)], [], []⟩

/-- A one-type registry containing only `1 = u32`. -/
def regU32 : ResolverState := ⟨[(1, tdU32)], [], []⟩

/-- `regU32` after id 1 has been resolved (and memoised). -/
def regU32r : ResolverState :=
  ⟨[(1, tdU32)], [(1, .primitive "number")], []⟩

/-- An entry of the `types` array has an id readable by `as_u64`
(the only per-entry requirement `TypeResolver::new` enforces). -/
def entryHasId (e : Json) : Bool := ((e.index "id").asU64).isSome

/-- The exact domain on which `TypeResolver::new` succeeds: an array all
of whose entries have a `u64`-readable id. -/
def typesArrayGood (j : Json) : Bool :=
  match j with
  | .arr entries => entries.all entryHasId
  | _ => false

/-- Whether an `Except` value is a success. -/
def exceptOk {ε α : Type} : Except ε α → Bool
  | .ok _ => true
  | .error _ => false

/-- The registry key `TypeResolver::new` derives from an entry:
its `as_u64` id truncated `as u32`. -/
def entryKey (e : Json) : Nat := toU32 (((e.index "id").asU64).getD 0)

/-- The registry value derived from an entry: its `type` object. -/
def entryVal (e : Json) : Json := e.index "type"

/-- Relation between the states before and after any resolver call: every
id on the in-progress stack stays on the stack, and an id that is on the
stack and uncached stays uncached.  This is the invariant that makes the
cycle guard sound and explains the error-path behaviour of
`resolve_type`. -/
def StackInv (st st' : ResolverState) : Prop :=
  (∀ j, j ∈ st.resolving_stack → j ∈ st'.resolving_stack) ∧
  (∀ j, j ∈ st.resolving_stack → st.resolved_cache.lookup j = none →
    st'.resolved_cache.lookup j = none)

/-! ### Helper lemmas -/

theorem StackInv.rfl (st : ResolverState) : StackInv st st :=
  ⟨fun _ h => h, fun _ _ h => h⟩

theorem StackInv.trans {s1 s2 s3 : ResolverState} (h1 : StackInv s1 s2)
    (h2 : StackInv s2 s3) : StackInv s1 s3 :=
  ⟨fun j hj => h2.1 j (h1.1 j hj),
   fun j hj hc => h2.2 j (h1.1 j hj) (h1.2 j hj hc)⟩

theorem contains_of_mem {a : Nat} {l : List Nat} (h : a ∈ l) :
    l.contains a = true :=
  List.elem_eq_true_of_mem h

/-- The cycle guard of `resolve_type`: an uncached id already on the
in-progress stack resolves to `Any` immediately, at any fuel, with the
state untouched (in particular nothing is added to the memo cache). -/
theorem resolve_type_stacked (f : Nat) (st : ResolverState) (id : Nat)
    (hc : st.resolved_cache.lookup id = none)
    (hs : st.resolving_stack.contains id = true) :
    resolve_type f st id = (.ok .any, st) := by
  rw [resolve_type, hc, hs]
  exact rfl

theorem asU64_natCast (x : Nat) (h : x < 18446744073709551616) :
    Json.asU64 (.num (x : Int)) = some x := by
  rw [Json.asU64, if_pos ⟨Int.natCast_nonneg x, by omega⟩, Int.toNat_natCast]

theorem toU32_small {x : Nat} (h : x < 4294967296) : toU32 x = x :=
  Nat.mod_eq_of_lt h

/-- Unfolding `resolve_type` for a fresh id (uncached, not in progress)
present in the registry, when resolving the definition succeeds: the id
is pushed, the definition resolved, then the id is popped and the result
cached. -/
theorem resolve_type_fresh_ok (f : Nat) (st : ResolverState) (id : Nat)
    (td : Json) (result : TypeScriptType) (st2 : ResolverState)
    (hc : st.resolved_cache.lookup id = none)
    (hs : st.resolving_stack.contains id = false)
    (ht : st.types.lookup id = some td)
    (hd : resolve_type_def f
        { st with resolving_stack := id :: st.resolving_stack } td =
      (.ok result, st2)) :
    resolve_type (f + 1) st id =
      (.ok result,
       { st2 with
         resolving_stack := st2.resolving_stack.erase id,
         resolved_cache := (id, result) :: st2.resolved_cache }) := by
  rw [resolve_type, hc, hs]
  show (match List.lookup id st.types with
    | none => _
    | some type_def => _) = _
  rw [ht]
  show (match resolve_type_def f
      { st with resolving_stack := id :: st.resolving_stack } td with
    | (.error e, st2) => _
    | (.ok result, st2) => _) = _
  rw [hd]

/-- Unfolding `resolve_type` for a fresh id when resolving the definition
fails: the error propagates and the state (with the id still pushed) is
whatever the failing call left behind. -/
theorem resolve_type_fresh_err (f : Nat) (st : ResolverState) (id : Nat)
    (td : Json) (e : ResolveError) (st2 : ResolverState)
    (hc : st.resolved_cache.lookup id = none)
    (hs : st.resolving_stack.contains id = false)
    (ht : st.types.lookup id = some td)
    (hd : resolve_type_def f
        { st with resolving_stack := id :: st.resolving_stack } td =
      (.error e, st2)) :
    resolve_type (f + 1) st id = (.error e, st2) := by
  rw [resolve_type, hc, hs]
  show (match List.lookup id st.types with
    | none => _
    | some type_def => _) = _
  rw [ht]
  show (match resolve_type_def f
      { st with resolving_stack := id :: st.resolving_stack } td with
    | (.error e, st2) => _
    | (.ok result, st2) => _) = _
  rw [hd]

/-- The field loop on one unnamed field whose type id resolves
successfully. -/
theorem resolve_field_types_single_ok (f : Nat) (st st1 : ResolverState)
    (x : Nat) (t : TypeScriptType) (hx : x < 4294967296)
    (h : resolve_type f st x = (.ok t, st1)) :
    resolve_field_types (f + 1) st [.obj [("type", (.num (x : Int)))]] =
      (.ok [t], st1) := by
  have hidx : ((Json.obj [("type", Json.num (x : Int))]).index "type").asU64
      = some x := by
    show (Json.num (x : Int)).asU64 = some x
    exact asU64_natCast x (by omega)
  rw [resolve_field_types, hidx]
  split
  · rename_i heq
    exact Option.noConfusion heq
  · rename_i tid heq
    obtain rfl : x = tid := Option.some.inj heq
    rw [toU32_small hx, h]
    show (match resolve_field_types f st1 [] with
      | (Except.error e, st') => (Except.error e, st')
      | (Except.ok ts, st2) => (Except.ok (t :: ts), st2)) =
      (Except.ok [t], st1)
    rw [resolve_field_types.eq_1]

/-- The field loop on one unnamed field whose type id fails to resolve. -/
theorem resolve_field_types_single_err (f : Nat) (st st1 : ResolverState)
    (x : Nat) (e : ResolveError) (hx : x < 4294967296)
    (h : resolve_type f st x = (.error e, st1)) :
    resolve_field_types (f + 1) st [.obj [("type", (.num (x : Int)))]] =
      (.error e, st1) := by
  have hidx : ((Json.obj [("type", Json.num (x : Int))]).index "type").asU64
      = some x := by
    show (Json.num (x : Int)).asU64 = some x
    exact asU64_natCast x (by omega)
  rw [resolve_field_types, hidx]
  split
  · rename_i heq
    exact Option.noConfusion heq
  · rename_i tid heq
    obtain rfl : x = tid := Option.some.inj heq
    rw [toU32_small hx, h]

/-- A single-field unnamed composite resolving successfully: the result
of the field is returned unwrapped (not a 1-tuple).  The path argument is
irrelevant to the tuple branch. -/
theorem resolve_composite_single_ok (f : Nat) (st st1 : ResolverState)
    (x : Nat) (t : TypeScriptType) (path : List String)
    (hx : x < 4294967296)
    (h : resolve_type f st x = (.ok t, st1)) :
    resolve_composite (f + 2) st (mkCompositeUnnamed [x]) path =
      (.ok t, st1) := by
  rw [resolve_composite,
    show ((mkCompositeUnnamed [x]).index "fields").asArray =
      some [Json.obj [("type", Json.num (x : Int))]] from rfl]
  split
  · rename_i heq
    exact Option.noConfusion heq
  · rename_i fields_array heq
    obtain rfl := Option.some.inj heq
    rw [resolve_field_types_single_ok f st st1 x t hx h]
    split
    · rename_i heq2
      exact absurd heq2 (by simp)
    · rename_i tuple_types st' heq2
      injection heq2 with h1 h2
      injection h1 with h3
      subst h2
      subst h3
      rfl

/-- A single-field unnamed composite whose field fails to resolve
propagates the error. -/
theorem resolve_composite_single_err (f : Nat) (st st1 : ResolverState)
    (x : Nat) (e : ResolveError) (path : List String)
    (hx : x < 4294967296)
    (h : resolve_type f st x = (.error e, st1)) :
    resolve_composite (f + 2) st (mkCompositeUnnamed [x]) path =
      (.error e, st1) := by
  rw [resolve_composite,
    show ((mkCompositeUnnamed [x]).index "fields").asArray =
      some [Json.obj [("type", Json.num (x : Int))]] from rfl]
  split
  · rename_i heq
    exact Option.noConfusion heq
  · rename_i fields_array heq
    obtain rfl := Option.some.inj heq
    rw [resolve_field_types_single_err f st st1 x e hx h]
    split
    · rename_i e2 st' heq2
      injection heq2 with h1 h2
      injection h1 with h3
      subst h2
      subst h3
      rfl
    · rename_i heq2
      exact absurd heq2.symm (by simp)

/-- A "newtype" definition resolving successfully resolves exactly as its
field's type id. -/
theorem resolve_type_def_newtype_ok (f : Nat) (st st1 : ResolverState)
    (x : Nat) (t : TypeScriptType) (hx : x < 4294967296)
    (h : resolve_type f st x = (.ok t, st1)) :
    resolve_type_def (f + 3) st (mkRefTd x) = (.ok t, st1) := by
  have hlit : mkCompositeUnnamed [x] =
      .obj [("fields", .arr [.obj [("type", (.num (x : Int)))]])] := rfl
  have hstep : resolve_type_def (f + 3) st (mkRefTd x) =
      resolve_composite (f + 2) st
        (.obj [("fields", .arr [.obj [("type", (.num (x : Int)))]])]) [] := rfl
  rw [hstep, ← hlit]
  exact resolve_composite_single_ok f st st1 x t [] hx h

/-- The two-type cycle `a = newtype(b)`, `b = newtype(a)` resolves to
`Any` in eight steps of fuel (hence for any larger fuel as well), caching
the terminal `Any` values for both ids and leaving the stack empty. -/
theorem resolve_type_cycle_core (f : Nat) (types : List (Nat × Json))
    (a b : Nat) (hab : a ≠ b) (ha : a < 4294967296) (hb : b < 4294967296)
    (hla : types.lookup a = some (mkRefTd b))
    (hlb : types.lookup b = some (mkRefTd a)) :
    resolve_type (f + 8) ⟨types, [], []⟩ a =
      (.ok .any, ⟨types, [(a, .any), (b, .any)], []⟩) := by
  have hcb : ([a] : List Nat).contains b = false := by
    simp [List.contains, Ne.symm hab]
  have hca : ([b, a] : List Nat).contains a = true := by
    simp [List.contains]
  have h1 : resolve_type f ⟨types, [], [b, a]⟩ a =
      (.ok .any, ⟨types, [], [b, a]⟩) :=
    resolve_type_stacked f ⟨types, [], [b, a]⟩ a rfl hca
  have h2 : resolve_type_def (f + 3) ⟨types, [], [b, a]⟩ (mkRefTd a) =
      (.ok .any, ⟨types, [], [b, a]⟩) :=
    resolve_type_def_newtype_ok f ⟨types, [], [b, a]⟩ ⟨types, [], [b, a]⟩
      a .any ha h1
  have h3 : resolve_type (f + 4) ⟨types, [], [a]⟩ b =
      (.ok .any, ⟨types, [(b, .any)], [a]⟩) := by
    have h3' := resolve_type_fresh_ok (f + 3) ⟨types, [], [a]⟩ b (mkRefTd a)
      .any ⟨types, [], [b, a]⟩ rfl hcb hlb h2
    rwa [show ([b, a] : List Nat).erase b = [a] from List.erase_cons_head b [a]]
      at h3'
  have h4 : resolve_type_def (f + 7) ⟨types, [], [a]⟩ (mkRefTd b) =
      (.ok .any, ⟨types, [(b, .any)], [a]⟩) :=
    resolve_type_def_newtype_ok (f + 4) ⟨types, [], [a]⟩
      ⟨types, [(b, .any)], [a]⟩ b .any hb h3
  have h5 := resolve_type_fresh_ok (f + 7) ⟨types, [], []⟩ a (mkRefTd b)
    .any ⟨types, [(b, .any)], [a]⟩ rfl rfl hla h4
  rwa [show ([a] : List Nat).erase a = [] from List.erase_cons_head a []] at h5

/-- The field loop: one unnamed field resolving successfully, followed by
the rest of the list. -/
theorem resolve_field_types_cons_ok (f : Nat) (st s1 s2 : ResolverState)
    (x : Nat) (t : TypeScriptType) (ts : List TypeScriptType)
    (rest : List Json) (hx : x < 4294967296)
    (h1 : resolve_type f st x = (.ok t, s1))
    (h2 : resolve_field_types f s1 rest = (.ok ts, s2)) :
    resolve_field_types (f + 1) st
      (.obj [("type", (.num (x : Int)))] :: rest) = (.ok (t :: ts), s2) := by
  have hidx : ((Json.obj [("type", Json.num (x : Int))]).index "type").asU64
      = some x := by
    show (Json.num (x : Int)).asU64 = some x
    exact asU64_natCast x (by omega)
  rw [resolve_field_types, hidx]
  split
  · rename_i heq
    exact Option.noConfusion heq
  · rename_i tid heq
    obtain rfl : x = tid := Option.some.inj heq
    rw [toU32_small hx, h1]
    show (match resolve_field_types f s1 rest with
      | (Except.error e, st') => (Except.error e, st')
      | (Except.ok ts, st2) => (Except.ok (t :: ts), st2)) =
      (Except.ok (t :: ts), s2)
    rw [h2]

/-- The named-field loop on one field resolving successfully, followed by
the rest of the list. -/
theorem resolve_named_fields_cons_ok (f : Nat) (st s1 s2 : ResolverState)
    (n : String) (x : Nat) (t : TypeScriptType)
    (ts : List (String × TypeScriptType)) (rest : List Json)
    (hx : x < 4294967296)
    (h1 : resolve_type f st x = (.ok t, s1))
    (h2 : resolve_named_fields f s1 rest = (.ok ts, s2)) :
    resolve_named_fields (f + 1) st
      (.obj [("name", .str n), ("type", (.num (x : Int)))] :: rest) =
      (.ok ((n, t) :: ts), s2) := by
  have hnm : ((Json.obj [("name", Json.str n),
      ("type", Json.num (x : Int))]).index "name").asStr = some n := rfl
  have hidx : ((Json.obj [("name", Json.str n),
      ("type", Json.num (x : Int))]).index "type").asU64 = some x := by
    show (Json.num (x : Int)).asU64 = some x
    exact asU64_natCast x (by omega)
  rw [resolve_named_fields, hnm, hidx]
  show (match resolve_type f st (toU32 x) with
    | (.error e, st') => _
    | (.ok t, st1) => _) = _
  rw [toU32_small hx, h1]
  show (match resolve_named_fields f s1 rest with
    | (Except.error e, st') => (Except.error e, st')
    | (Except.ok fs, st2) => (Except.ok ((n, t) :: fs), st2)) =
    (Except.ok ((n, t) :: ts), s2)
  rw [h2]

/-- A two-field all-unnamed composite resolves to the tuple of the two
resolved fields, in declared order. -/
theorem resolve_composite_pair_unnamed_ok (f : Nat) (st s1 s2 : ResolverState)
    (x y : Nat) (tx ty : TypeScriptType) (path : List String)
    (hx : x < 4294967296) (hy : y < 4294967296)
    (h1 : resolve_type (f + 1) st x = (.ok tx, s1))
    (h2 : resolve_type f s1 y = (.ok ty, s2)) :
    resolve_composite (f + 3) st (mkCompositeUnnamed [x, y]) path =
      (.ok (.tuple [tx, ty]), s2) := by
  have hfields : resolve_field_types (f + 2) st
      [.obj [("type", (.num (x : Int)))], .obj [("type", (.num (y : Int)))]] =
      (.ok [tx, ty], s2) :=
    resolve_field_types_cons_ok (f + 1) st s1 s2 x tx [ty]
      [.obj [("type", (.num (y : Int)))]] hx h1
      (resolve_field_types_single_ok f s1 s2 y ty hy h2)
  rw [resolve_composite,
    show ((mkCompositeUnnamed [x, y]).index "fields").asArray =
      some [Json.obj [("type", Json.num (x : Int))],
            Json.obj [("type", Json.num (y : Int))]] from rfl]
  split
  · rename_i heq
    exact Option.noConfusion heq
  · rename_i fields_array heq
    obtain rfl := Option.some.inj heq
    rw [hfields]
    exact rfl

/-- A two-field named composite resolves to an interface named after the
last path segment (via `structName`), preserving field order and
names. -/
theorem resolve_composite_pair_named_ok (f : Nat) (st s1 s2 : ResolverState)
    (n1 n2 : String) (x y : Nat) (tx ty : TypeScriptType)
    (path : List String)
    (hx : x < 4294967296) (hy : y < 4294967296)
    (h1 : resolve_type (f + 1) st x = (.ok tx, s1))
    (h2 : resolve_type f s1 y = (.ok ty, s2)) :
    resolve_composite (f + 3) st (mkCompositeNamed [(n1, x), (n2, y)]) path =
      (.ok (.interface (structName path 2) [(n1, tx), (n2, ty)] []), s2) := by
  have hfields : resolve_named_fields (f + 2) st
      [.obj [("name", .str n1), ("type", (.num (x : Int)))],
       .obj [("name", .str n2), ("type", (.num (y : Int)))]] =
      (.ok [(n1, tx), (n2, ty)], s2) :=
    resolve_named_fields_cons_ok (f + 1) st s1 s2 n1 x tx
      [(n2, ty)] [.obj [("name", .str n2), ("type", (.num (y : Int)))]] hx h1
      (resolve_named_fields_cons_ok f s1 s2 s2 n2 y ty [] [] hy h2
        (resolve_named_fields.eq_1 f s2))
  rw [resolve_composite,
    show ((mkCompositeNamed [(n1, x), (n2, y)]).index "fields").asArray =
      some [Json.obj [("name", Json.str n1), ("type", Json.num (x : Int))],
            Json.obj [("name", Json.str n2), ("type", Json.num (y : Int))]]
      from rfl]
  split
  · rename_i heq
    exact Option.noConfusion heq
  · rename_i fields_array heq
    obtain rfl := Option.some.inj heq
    rw [hfields]
    exact rfl

/-- The `params` array of a `Result`-path fixture is read back verbatim. -/
theorem mkResultTd_params (ps : List Json) :
    ((mkResultTd ps).index "params").asArray = some ps := rfl

theorem paramType_mk_cons_0 (x : Nat) (ps : List Json)
    (hx : x < 18446744073709551616) :
    paramType (mkParam x :: ps) 0 = some x := by
  rw [paramType, show (mkParam x).index "type" = Json.num (x : Int) from rfl]
  exact asU64_natCast x hx

theorem paramType_cons_succ (p : Json) (ps : List Json) (i : Nat) :
    paramType (p :: ps) (i + 1) = paramType ps i := rfl

theorem paramType_nil (i : Nat) : paramType [] i = none := rfl

theorem result_param_resolve_some (f : Nat) (st : ResolverState) (tid : Nat) :
    result_param_resolve (f + 1) st (some tid) =
      resolve_type f st (toU32 tid) := rfl

theorem result_param_resolve_none (f : Nat) (st : ResolverState) :
    result_param_resolve f st none = (.ok .any, st) := by
  cases f <;> rfl

theorem resolve_result_fst_step (f : Nat) (st s1 : ResolverState)
    (params : List Json) (tid : Nat) (ok_type : TypeScriptType)
    (hp : paramType params 0 = some tid)
    (h : result_param_resolve f st (some tid) = (.ok ok_type, s1)) :
    resolve_result_fst (f + 1) st params =
      resolve_result_snd f s1 params ok_type := by
  rw [resolve_result_fst, hp, h]

theorem resolve_result_snd_step (f : Nat) (st1 s2 : ResolverState)
    (params : List Json) (tid : Nat) (ok_type err_type : TypeScriptType)
    (hp : paramType params 1 = some tid)
    (h : result_param_resolve f st1 (some tid) = (.ok err_type, s2)) :
    resolve_result_snd (f + 1) st1 params ok_type =
      (.ok (some (.union "Result"
        [mkVariant "Ok" [(some "value", ok_type)],
         mkVariant "Err" [(some "error", err_type)]] [])), s2) := by
  rw [resolve_result_snd, hp, h]

theorem resolve_result_snd_missing (f : Nat) (st1 : ResolverState)
    (params : List Json) (ok_type : TypeScriptType)
    (hp : paramType params 1 = none) :
    resolve_result_snd (f + 1) st1 params ok_type =
      (.ok (some (.union "Result"
        [mkVariant "Ok" [(some "value", ok_type)],
         mkVariant "Err" [(some "error", .any)]] [])), st1) := by
  rw [resolve_result_snd, hp, result_param_resolve_none]

theorem resolve_result_override_unfold (f : Nat) (st : ResolverState)
    (params : List Json) :
    resolve_result_override (f + 1) st (mkResultTd params) =
      resolve_result_fst f st params := by
  rw [resolve_result_override, mkResultTd_params]

theorem wk_result (f : Nat) (st : ResolverState) (td : Json) :
    resolve_well_known_type (f + 1) st ["Result"] td =
      resolve_result_override f st td := rfl

theorem resolve_type_def_result (f : Nat) (st st' : ResolverState)
    (params : List Json) (t : TypeScriptType)
    (h : resolve_result_override f st (mkResultTd params) =
      (.ok (some t), st')) :
    resolve_type_def (f + 2) st (mkResultTd params) = (.ok t, st') := by
  have hsc : (if (pathOf (mkResultTd params)).isEmpty then
        ((Except.ok none : Except ResolveError (Option TypeScriptType)), st)
      else resolve_well_known_type (f + 1) st (pathOf (mkResultTd params))
        (mkResultTd params)) = (.ok (some t), st') := by
    rw [show (if (pathOf (mkResultTd params)).isEmpty then
          ((Except.ok none : Except ResolveError (Option TypeScriptType)), st)
        else resolve_well_known_type (f + 1) st (pathOf (mkResultTd params))
          (mkResultTd params)) =
        resolve_well_known_type (f + 1) st ["Result"] (mkResultTd params)
      from rfl]
    rw [wk_result]
    exact h
  rw [resolve_type_def, hsc]

theorem result_td_both_ok (f : Nat) (st s1 s2 : ResolverState) (x y : Nat)
    (tx ty : TypeScriptType) (hx : x < 4294967296) (hy : y < 4294967296)
    (h1 : resolve_type (f + 1) st x = (.ok tx, s1))
    (h2 : resolve_type f s1 y = (.ok ty, s2)) :
    resolve_type_def (f + 6) st (mkResultTd [mkParam x, mkParam y]) =
      (.ok (.union "Result"
        [mkVariant "Ok" [(some "value", tx)],
         mkVariant "Err" [(some "error", ty)]] []), s2) := by
  have hp0 : paramType [mkParam x, mkParam y] 0 = some x :=
    paramType_mk_cons_0 x [mkParam y] (by omega)
  have hp1 : paramType [mkParam x, mkParam y] 1 = some y := by
    rw [paramType_cons_succ]
    exact paramType_mk_cons_0 y [] (by omega)
  have hr0 : result_param_resolve (f + 2) st (some x) = (.ok tx, s1) := by
    rw [result_param_resolve_some, toU32_small hx]
    exact h1
  have hr1 : result_param_resolve (f + 1) s1 (some y) = (.ok ty, s2) := by
    rw [result_param_resolve_some, toU32_small hy]
    exact h2
  have hov : resolve_result_override (f + 4) st
      (mkResultTd [mkParam x, mkParam y]) =
      (.ok (some (.union "Result"
        [mkVariant "Ok" [(some "value", tx)],
         mkVariant "Err" [(some "error", ty)]] [])), s2) := by
    rw [resolve_result_override_unfold,
      resolve_result_fst_step (f + 2) st s1 _ x tx hp0 hr0]
    exact resolve_result_snd_step (f + 1) s1 s2 _ y tx ty hp1 hr1
  exact resolve_type_def_result (f + 4) st s2 _ _ hov

theorem resolve_result_fst_missing (f : Nat) (st : ResolverState)
    (params : List Json) (hp : paramType params 0 = none) :
    resolve_result_fst (f + 1) st params =
      resolve_result_snd f st params .any := by
  rw [resolve_result_fst, hp, result_param_resolve_none]

theorem result_td_missing_snd (f : Nat) (st s1 : ResolverState) (x : Nat)
    (tx : TypeScriptType) (hx : x < 4294967296)
    (h1 : resolve_type (f + 1) st x = (.ok tx, s1)) :
    resolve_type_def (f + 6) st (mkResultTd [mkParam x]) =
      (.ok (.union "Result"
        [mkVariant "Ok" [(some "value", tx)],
         mkVariant "Err" [(some "error", .any)]] []), s1) := by
  have hp0 : paramType [mkParam x] 0 = some x :=
    paramType_mk_cons_0 x [] (by omega)
  have hp1 : paramType [mkParam x] 1 = none := by
    rw [paramType_cons_succ]
    exact paramType_nil 0
  have hr0 : result_param_resolve (f + 2) st (some x) = (.ok tx, s1) := by
    rw [result_param_resolve_some, toU32_small hx]
    exact h1
  have hov : resolve_result_override (f + 4) st (mkResultTd [mkParam x]) =
      (.ok (some (.union "Result"
        [mkVariant "Ok" [(some "value", tx)],
         mkVariant "Err" [(some "error", .any)]] [])), s1) := by
    rw [resolve_result_override_unfold,
      resolve_result_fst_step (f + 2) st s1 _ x tx hp0 hr0]
    exact resolve_result_snd_missing (f + 1) s1 _ tx hp1
  exact resolve_type_def_result (f + 4) st s1 _ _ hov

theorem result_td_empty (f : Nat) (st : ResolverState) :
    resolve_type_def (f + 6) st (mkResultTd []) =
      (.ok (.union "Result"
        [mkVariant "Ok" [(some "value", .any)],
         mkVariant "Err" [(some "error", .any)]] []), st) := by
  have hov : resolve_result_override (f + 4) st (mkResultTd []) =
      (.ok (some (.union "Result"
        [mkVariant "Ok" [(some "value", .any)],
         mkVariant "Err" [(some "error", .any)]] [])), st) := by
    rw [resolve_result_override_unfold,
      resolve_result_fst_missing (f + 2) st [] (paramType_nil 0)]
    exact resolve_result_snd_missing (f + 1) st [] .any (paramType_nil 1)
  exact resolve_type_def_result (f + 4) st st _ _ hov

/-- `buildTypes` fails with `typeEntryMissingId` as soon as some entry has
no `u64`-readable id. -/
theorem buildTypes_err (es : List Json) (acc : List (Nat × Json))
    (h : es.all entryHasId = false) :
    buildTypes es acc = .error .typeEntryMissingId := by
  induction es generalizing acc with
  | nil => simp [List.all_nil] at h
  | cons e rest ih =>
    cases hid : (e.index "id").asU64 with
    | none => simp [buildTypes, hid]
    | some n =>
      have hrest : rest.all entryHasId = false := by
        have he : entryHasId e = true := by simp [entryHasId, hid]
        simpa [List.all_cons, he] using h
      simp only [buildTypes, hid]
      exact ih _ hrest

/-- On an all-good entry list, `buildTypes` returns the accumulator
prefixed (reversed, prepend-shadowing order) with each entry's truncated
id mapped to its `type` object. -/
theorem buildTypes_ok (es : List Json) (acc : List (Nat × Json))
    (h : es.all entryHasId = true) :
    buildTypes es acc =
      .ok ((es.map fun e => (entryKey e, entryVal e)).reverse ++ acc) := by
  induction es generalizing acc with
  | nil => simp [buildTypes]
  | cons e rest ih =>
    have hall := h
    rw [List.all_cons, Bool.and_eq_true] at hall
    obtain ⟨he, hrest⟩ := hall
    obtain ⟨n, hid⟩ : ∃ n, (e.index "id").asU64 = some n :=
      Option.isSome_iff_exists.mp (by simpa [entryHasId] using he)
    simp only [buildTypes, hid]
    rw [ih _ hrest]
    have hkey : entryKey e = toU32 n := by simp [entryKey, hid]
    simp [hkey, entryVal, List.map_cons, List.reverse_cons, List.append_assoc]

/-- A memoised id resolves from the cache, at any fuel, without touching
the state. -/
theorem resolve_type_cache_hit (f : Nat) (st : ResolverState) (id : Nat)
    (v : TypeScriptType) (hc : st.resolved_cache.lookup id = some v) :
    resolve_type f st id = (.ok v, st) := by
  rw [resolve_type, hc]

/-- A fresh id with no fuel: the fuel-exhaustion error, with the id
pushed. -/
theorem resolve_type_zero_fresh (st : ResolverState) (id : Nat)
    (hc : st.resolved_cache.lookup id = none)
    (hs : st.resolving_stack.contains id = false) :
    resolve_type 0 st id =
      (.error .fuelExhausted,
       { st with resolving_stack := id :: st.resolving_stack }) := by
  rw [resolve_type, hc, hs]
  rfl

/-- A fresh id absent from the registry errors with `typeNotFound`,
leaving the id pushed. -/
theorem resolve_type_fresh_absent (f : Nat) (st : ResolverState) (id : Nat)
    (hc : st.resolved_cache.lookup id = none)
    (hs : st.resolving_stack.contains id = false)
    (ht : st.types.lookup id = none) :
    resolve_type (f + 1) st id =
      (.error (.typeNotFound id),
       { st with resolving_stack := id :: st.resolving_stack }) := by
  rw [resolve_type, hc, hs]
  show (match List.lookup id st.types with
    | none => _
    | some type_def => _) = _
  rw [ht]

/-- Any successful `resolve_type` call leaves its result memoised for the
returned id — unless it was the cycle guard answering, in which case the
state is untouched and the result is `Any`. -/
theorem resolve_type_ok_shape (f : Nat) (st st' : ResolverState) (id : Nat)
    (v : TypeScriptType) (h : resolve_type f st id = (.ok v, st')) :
    st'.resolved_cache.lookup id = some v ∨
    (st' = st ∧ v = .any ∧ st.resolved_cache.lookup id = none ∧
      st.resolving_stack.contains id = true) := by
  cases hc : st.resolved_cache.lookup id with
  | some c =>
    have h2 := (resolve_type_cache_hit f st id c hc).symm.trans h
    injection h2 with hA hB
    injection hA with hA2
    subst hB
    subst hA2
    exact Or.inl hc
  | none =>
    cases hs : st.resolving_stack.contains id with
    | true =>
      have h2 := (resolve_type_stacked f st id hc hs).symm.trans h
      injection h2 with hA hB
      injection hA with hA2
      subst hB
      subst hA2
      exact Or.inr ⟨rfl, rfl, rfl, rfl⟩
    | false =>
      cases f with
      | zero =>
        have h2 := (resolve_type_zero_fresh st id hc hs).symm.trans h
        injection h2 with hA hB
        exact Except.noConfusion hA
      | succ f =>
        cases ht : st.types.lookup id with
        | none =>
          have h2 := (resolve_type_fresh_absent f st id hc hs ht).symm.trans h
          injection h2 with hA hB
          exact Except.noConfusion hA
        | some td =>
          rcases hd : resolve_type_def f
              { st with resolving_stack := id :: st.resolving_stack } td
            with ⟨r, st2⟩
          cases r with
          | error e =>
            have h2 := (resolve_type_fresh_err f st id td e st2
              hc hs ht hd).symm.trans h
            injection h2 with hA hB
            exact Except.noConfusion hA
          | ok result =>
            have h2 := (resolve_type_fresh_ok f st id td result st2
              hc hs ht hd).symm.trans h
            injection h2 with hA hB
            injection hA with hA2
            subst hB
            subst hA2
            exact Or.inl (by simp [List.lookup])

/-- Pushing an id onto the in-progress stack preserves the stack
invariant. -/
theorem stackInv_push (st : ResolverState) (id : Nat) :
    StackInv st { st with resolving_stack := id :: st.resolving_stack } :=
  ⟨fun _ hj => List.mem_cons_of_mem id hj, fun _ _ h => h⟩

/-- A member of a list is distinct from anything the list does not
contain. -/
theorem ne_of_mem_of_not_contains {j id : Nat} {l : List Nat}
    (hj : j ∈ l) (hs : l.contains id = false) : j ≠ id := fun hji => by
  rw [hji] at hj
  rw [contains_of_mem hj] at hs
  exact Bool.noConfusion hs

/-- The success epilogue of `resolve_type` (erase the id, memoise the
result) preserves the stack invariant relative to the state before the
push. -/
theorem stackInv_finish (st st2 : ResolverState) (id : Nat)
    (result : TypeScriptType)
    (hs : st.resolving_stack.contains id = false)
    (h12 : StackInv { st with resolving_stack := id :: st.resolving_stack }
      st2) :
    StackInv st { st2 with
      resolving_stack := st2.resolving_stack.erase id,
      resolved_cache := (id, result) :: st2.resolved_cache } := by
  constructor
  · intro j hj
    have hne : j ≠ id := ne_of_mem_of_not_contains hj hs
    have hj2 : j ∈ st2.resolving_stack :=
      h12.1 j (List.mem_cons_of_mem id hj)
    exact (List.mem_erase_of_ne hne).mpr hj2
  · intro j hj hcj
    have hne : j ≠ id := ne_of_mem_of_not_contains hj hs
    have hc2 : st2.resolved_cache.lookup j = none :=
      h12.2 j (List.mem_cons_of_mem id hj) hcj
    show List.lookup j ((id, result) :: st2.resolved_cache) = none
    simp [List.lookup, beq_false_of_ne hne, hc2]

/-- Every function of the resolver preserves `StackInv`: ids on the
in-progress stack stay there, and stacked uncached ids stay uncached —
by mutual induction on fuel over the whole resolver. -/
theorem stackInv_all : ∀ fuel : Nat,
    (∀ st id, StackInv st (resolve_type fuel st id).2) ∧
    (∀ st td, StackInv st (resolve_type_def fuel st td).2) ∧
    (∀ st p td, StackInv st (resolve_well_known_type fuel st p td).2) ∧
    (∀ st td, StackInv st (resolve_option_override fuel st td).2) ∧
    (∀ st o, StackInv st (result_param_resolve fuel st o).2) ∧
    (∀ st ps t, StackInv st (resolve_result_snd fuel st ps t).2) ∧
    (∀ st ps, StackInv st (resolve_result_fst fuel st ps).2) ∧
    (∀ st td, StackInv st (resolve_result_override fuel st td).2) ∧
    (∀ st c p, StackInv st (resolve_composite fuel st c p).2) ∧
    (∀ st l, StackInv st (resolve_field_types fuel st l).2) ∧
    (∀ st l, StackInv st (resolve_named_fields fuel st l).2) ∧
    (∀ st v p, StackInv st (resolve_variant fuel st v p).2) ∧
    (∀ st l, StackInv st (resolve_variants fuel st l).2) ∧
    (∀ st v, StackInv st (variant_fields_step fuel st v).2) ∧
    (∀ st a b l, StackInv st (resolve_variant_fields fuel st a b l).2) ∧
    (∀ st sq, StackInv st (resolve_sequence fuel st sq).2) ∧
    (∀ st a, StackInv st (resolve_array fuel st a).2) ∧
    (∀ st t, StackInv st (resolve_tuple fuel st t).2) ∧
    (∀ st l, StackInv st (resolve_tuple_ids fuel st l).2) ∧
    (∀ st c, StackInv st (resolve_compact fuel st c).2) := by
  intro fuel
  induction fuel with
  | zero =>
    refine ⟨?_, ?_, ?_, ?_, ?_, ?_, ?_, ?_, ?_, ?_, ?_, ?_, ?_, ?_, ?_, ?_,
      ?_, ?_, ?_, ?_⟩
    · intro st id
      cases hc : st.resolved_cache.lookup id with
      | some c =>
        rw [resolve_type_cache_hit 0 st id c hc]
        exact StackInv.rfl st
      | none =>
        cases hs : st.resolving_stack.contains id with
        | true =>
          rw [resolve_type_stacked 0 st id hc hs]
          exact StackInv.rfl st
        | false =>
          rw [resolve_type_zero_fresh st id hc hs]
          exact stackInv_push st id
    · intro st td
      exact StackInv.rfl st
    · intro st p td
      exact StackInv.rfl st
    · intro st td
      exact StackInv.rfl st
    · intro st o
      cases o with
      | none => exact StackInv.rfl st
      | some tid => exact StackInv.rfl st
    · intro st ps t
      exact StackInv.rfl st
    · intro st ps
      exact StackInv.rfl st
    · intro st td
      exact StackInv.rfl st
    · intro st c p
      exact StackInv.rfl st
    · intro st l
      cases l with
      | nil => exact StackInv.rfl st
      | cons a as => exact StackInv.rfl st
    · intro st l
      cases l with
      | nil => exact StackInv.rfl st
      | cons a as => exact StackInv.rfl st
    · intro st v p
      exact StackInv.rfl st
    · intro st l
      cases l with
      | nil => exact StackInv.rfl st
      | cons a as => exact StackInv.rfl st
    · intro st v
      exact StackInv.rfl st
    · intro st a b l
      cases l with
      | nil => exact StackInv.rfl st
      | cons x xs => exact StackInv.rfl st
    · intro st sq
      exact StackInv.rfl st
    · intro st a
      exact StackInv.rfl st
    · intro st t
      exact StackInv.rfl st
    · intro st l
      cases l with
      | nil => exact StackInv.rfl st
      | cons a as => exact StackInv.rfl st
    · intro st c
      exact StackInv.rfl st
  | succ f ih =>
    obtain ⟨IHrt, IHrtd, IHwk, IHopt, IHrps, IHsnd, IHfst, IHov, IHcomp,
      IHrft, IHrnf, IHvar, IHvars, IHvfs, IHrvf, IHseq, IHarr, IHtup,
      IHrti, IHcpt⟩ := ih
    refine ⟨?_, ?_, ?_, ?_, ?_, ?_, ?_, ?_, ?_, ?_, ?_, ?_, ?_, ?_, ?_, ?_,
      ?_, ?_, ?_, ?_⟩
    · intro st id
      cases hc : st.resolved_cache.lookup id with
      | some c =>
        rw [resolve_type_cache_hit (f + 1) st id c hc]
        exact StackInv.rfl st
      | none =>
        cases hs : st.resolving_stack.contains id with
        | true =>
          rw [resolve_type_stacked (f + 1) st id hc hs]
          exact StackInv.rfl st
        | false =>
          cases ht : st.types.lookup id with
          | none =>
            rw [resolve_type_fresh_absent f st id hc hs ht]
            exact stackInv_push st id
          | some td =>
            rcases hd : resolve_type_def f
                { st with resolving_stack := id :: st.resolving_stack } td
              with ⟨r, st2⟩
            have h12 : StackInv
                { st with resolving_stack := id :: st.resolving_stack }
                st2 := by
              have h := IHrtd
                { st with resolving_stack := id :: st.resolving_stack } td
              rw [hd] at h
              exact h
            cases r with
            | error e =>
              rw [resolve_type_fresh_err f st id td e st2 hc hs ht hd]
              exact (stackInv_push st id).trans h12
            | ok result =>
              rw [resolve_type_fresh_ok f st id td result st2 hc hs ht hd]
              exact stackInv_finish st st2 id result hs h12
    · intro st td
      rw [resolve_type_def]
      split
      next e st' heq =>
        split at heq
        · injection heq with hA hB
          exact Except.noConfusion hA
        · have h := IHwk st (pathOf td) td
          rw [heq] at h
          exact h
      next t st' heq =>
        split at heq
        · injection heq with hA hB
          injection hA with hA2
          exact Option.noConfusion hA2
        · have h := IHwk st (pathOf td) td
          rw [heq] at h
          exact h
      next st1 heq =>
        have hs1 : StackInv st st1 := by
          split at heq
          · injection heq with hA hB
            subst hB
            exact StackInv.rfl st
          · have h := IHwk st (pathOf td) td
            rw [heq] at h
            exact h
        split
        next prim heqp =>
          split
          next => exact hs1
          next => exact hs1
        next heqp =>
          split
          next c heqc => exact hs1.trans (IHcomp st1 c (pathOf td))
          next heqc =>
            split
            next v heqv => exact hs1.trans (IHvar st1 v (pathOf td))
            next heqv =>
              split
              next sq heqs => exact hs1.trans (IHseq st1 sq)
              next heqs =>
                split
                next a heqa => exact hs1.trans (IHarr st1 a)
                next heqa =>
                  split
                  next t heqt => exact hs1.trans (IHtup st1 t)
                  next heqt =>
                    split
                    next c heqc2 => exact hs1.trans (IHcpt st1 c)
                    next heqc2 =>
                      split
                      next => exact hs1
                      next => exact hs1
    · intro st p td
      rw [resolve_well_known_type]
      split
      next => exact IHopt st td
      next =>
        split
        next => exact IHov st td
        next =>
          split
          next => exact StackInv.rfl st
          next =>
            split
            next => exact StackInv.rfl st
            next =>
              split
              next => exact StackInv.rfl st
              next =>
                split
                next => exact StackInv.rfl st
                next =>
                  split
                  next => exact StackInv.rfl st
                  next => exact StackInv.rfl st
    · intro st td
      rw [resolve_option_override]
      split
      next params heqa =>
        split
        next tid heqp =>
          split
          next e st' heq =>
            have h := IHrt st (toU32 tid)
            rw [heq] at h
            exact h
          next inner st' heq =>
            have h := IHrt st (toU32 tid)
            rw [heq] at h
            exact h
        next heqp => exact StackInv.rfl st
      next heqa => exact StackInv.rfl st
    · intro st o
      cases o with
      | none =>
        rw [result_param_resolve_none]
        exact StackInv.rfl st
      | some tid =>
        rw [result_param_resolve_some]
        exact IHrt st (toU32 tid)
    · intro st ps t
      rw [resolve_result_snd]
      split
      next e st' heq =>
        have h := IHrps st (paramType ps 1)
        rw [heq] at h
        exact h
      next et st2 heq =>
        have h := IHrps st (paramType ps 1)
        rw [heq] at h
        exact h
    · intro st ps
      rw [resolve_result_fst]
      split
      next e st' heq =>
        have h := IHrps st (paramType ps 0)
        rw [heq] at h
        exact h
      next okt st1 heq =>
        have h := IHrps st (paramType ps 0)
        rw [heq] at h
        exact h.trans (IHsnd st1 ps okt)
    · intro st td
      rw [resolve_result_override]
      split
      next => exact StackInv.rfl st
      next params heqa => exact IHfst st params
    · intro st c p
      rw [resolve_composite]
      split
      next => exact StackInv.rfl st
      next fa heqa =>
        split
        next e1 s1 heq1 =>
          split
          next e2 s2 heq2 =>
            cases hit : fa.all fun fld =>
                (fld.getKey "name").isNone || (fld.index "name").isNull
            · have h := IHrnf st fa
              rw [heq2] at h
              exact h
            · have h := IHrft st fa
              rw [heq1] at h
              exact h
          next fs2 s2 heq2 =>
            cases hit : fa.all fun fld =>
                (fld.getKey "name").isNone || (fld.index "name").isNull
            · have h := IHrnf st fa
              rw [heq2] at h
              exact h
            · have h := IHrft st fa
              rw [heq1] at h
              exact h
        next ts1 s1 heq1 =>
          split
          next single =>
            split
            next e2 s2 heq2 =>
              cases hit : fa.all fun fld =>
                  (fld.getKey "name").isNone || (fld.index "name").isNull
              · have h := IHrnf st fa
                rw [heq2] at h
                exact h
              · have h := IHrft st fa
                rw [heq1] at h
                exact h
            next fs2 s2 heq2 =>
              cases hit : fa.all fun fld =>
                  (fld.getKey "name").isNone || (fld.index "name").isNull
              · have h := IHrnf st fa
                rw [heq2] at h
                exact h
              · have h := IHrft st fa
                rw [heq1] at h
                exact h
          next x hx =>
            split
            next e2 s2 heq2 =>
              cases hit : fa.all fun fld =>
                  (fld.getKey "name").isNone || (fld.index "name").isNull
              · have h := IHrnf st fa
                rw [heq2] at h
                exact h
              · have h := IHrft st fa
                rw [heq1] at h
                exact h
            next fs2 s2 heq2 =>
              cases hit : fa.all fun fld =>
                  (fld.getKey "name").isNone || (fld.index "name").isNull
              · have h := IHrnf st fa
                rw [heq2] at h
                exact h
              · have h := IHrft st fa
                rw [heq1] at h
                exact h
    · intro st l
      cases l with
      | nil => exact StackInv.rfl st
      | cons field rest =>
        rw [resolve_field_types]
        split
        next => exact StackInv.rfl st
        next tid heqt =>
          split
          next e st1 heq =>
            have h1 := IHrt st (toU32 tid)
            rw [heq] at h1
            exact h1
          next t st1 heq =>
            have h1 := IHrt st (toU32 tid)
            rw [heq] at h1
            split
            next e st2 heq2 =>
              have h2 := IHrft st1 rest
              rw [heq2] at h2
              exact h1.trans h2
            next ts st2 heq2 =>
              have h2 := IHrft st1 rest
              rw [heq2] at h2
              exact h1.trans h2
    · intro st l
      cases l with
      | nil => exact StackInv.rfl st
      | cons field rest =>
        rw [resolve_named_fields]
        split
        next => exact StackInv.rfl st
        next nm heqn =>
          split
          next => exact StackInv.rfl st
          next tid heqt =>
            split
            next e st1 heq =>
              have h1 := IHrt st (toU32 tid)
              rw [heq] at h1
              exact h1
            next t st1 heq =>
              have h1 := IHrt st (toU32 tid)
              rw [heq] at h1
              split
              next e st2 heq2 =>
                have h2 := IHrnf st1 rest
                rw [heq2] at h2
                exact h1.trans h2
              next fs st2 heq2 =>
                have h2 := IHrnf st1 rest
                rw [heq2] at h2
                exact h1.trans h2
    · intro st v p
      rw [resolve_variant]
      split
      next => exact StackInv.rfl st
      next va heqa =>
        split
        next e st' heq =>
          have h := IHvars st va
          rw [heq] at h
          exact h
        next vs st' heq =>
          have h := IHvars st va
          rw [heq] at h
          exact h
    · intro st l
      cases l with
      | nil => exact StackInv.rfl st
      | cons var rest =>
        rw [resolve_variants]
        split
        next => exact StackInv.rfl st
        next nm heqn =>
          split
          next e st' heq =>
            have h := IHvfs st var
            rw [heq] at h
            exact h
          next fields st1 heq =>
            have h1 := IHvfs st var
            rw [heq] at h1
            split
            next e st2 heq2 =>
              have h2 := IHvars st1 rest
              rw [heq2] at h2
              exact h1.trans h2
            next vs st2 heq2 =>
              have h2 := IHvars st1 rest
              rw [heq2] at h2
              exact h1.trans h2
    · intro st v
      rw [variant_fields_step]
      split
      next => exact StackInv.rfl st
      next fa heqa => exact IHrvf st fa.length 0 fa
    · intro st a b l
      cases l with
      | nil => exact StackInv.rfl st
      | cons field rest =>
        rw [resolve_variant_fields]
        split
        next => exact StackInv.rfl st
        next tid heqt =>
          split
          next e st1 heq =>
            have h1 := IHrt st (toU32 tid)
            rw [heq] at h1
            exact h1
          next ft st1 heq =>
            have h1 := IHrt st (toU32 tid)
            rw [heq] at h1
            rcases hr : resolve_variant_fields f st1 a (b + 1) rest
              with ⟨r2, st2⟩
            have h2 := IHrvf st1 a (b + 1) rest
            rw [hr] at h2
            cases r2 with
            | error e => exact h1.trans h2
            | ok fs => exact h1.trans h2
    · intro st sq
      rw [resolve_sequence]
      split
      next => exact StackInv.rfl st
      next tid heqt =>
        split
        next e st' heq =>
          have h := IHrt st (toU32 tid)
          rw [heq] at h
          exact h
        next inner st' heq =>
          have h := IHrt st (toU32 tid)
          rw [heq] at h
          split
          next => exact h
          next => exact h
    · intro st a
      rw [resolve_array]
      split
      next => exact StackInv.rfl st
      next tid heqt =>
        split
        next e st' heq =>
          have h := IHrt st (toU32 tid)
          rw [heq] at h
          exact h
        next inner st' heq =>
          have h := IHrt st (toU32 tid)
          rw [heq] at h
          split
          next => exact h
          next => exact h
    · intro st t
      rw [resolve_tuple]
      split
      next => exact StackInv.rfl st
      next tids heqa =>
        split
        · exact StackInv.rfl st
        · split
          next e st' heq =>
            have h := IHrti st tids
            rw [heq] at h
            exact h
          next ts st' heq =>
            have h := IHrti st tids
            rw [heq] at h
            exact h
    · intro st l
      cases l with
      | nil => exact StackInv.rfl st
      | cons idv rest =>
        rw [resolve_tuple_ids]
        split
        next => exact StackInv.rfl st
        next tid heqt =>
          split
          next e st1 heq =>
            have h1 := IHrt st (toU32 tid)
            rw [heq] at h1
            exact h1
          next t st1 heq =>
            have h1 := IHrt st (toU32 tid)
            rw [heq] at h1
            split
            next e st2 heq2 =>
              have h2 := IHrti st1 rest
              rw [heq2] at h2
              exact h1.trans h2
            next ts st2 heq2 =>
              have h2 := IHrti st1 rest
              rw [heq2] at h2
              exact h1.trans h2
    · intro st c
      rw [resolve_compact]
      split
      next => exact StackInv.rfl st
      next tid heqt => exact IHrt st (toU32 tid)

/-! ### Claim theorems -/

/-- C2: for every registry containing the cycle `a references b` and
`b references a` (as single-field unnamed composites), `resolve(a)`
terminates — eight units of fuel suffice, for every larger fuel — with
result `Any` (the cyclic position is the whole collapsed newtype chain);
and, for the cycle guard itself, an uncached id found on the in-progress
stack resolves to `Any` immediately with the state — in particular the
memo cache — completely unchanged, so only terminal, non-cyclic
resolutions are ever cached. -/
theorem resolve_type_cycle_behaviour :
    (∀ f st id, st.resolved_cache.lookup id = none →
      st.resolving_stack.contains id = true →
      resolve_type f st id = (.ok .any, st)) ∧
    (∀ f types a b, a ≠ b → a < 4294967296 → b < 4294967296 →
      types.lookup a = some (mkRefTd b) →
      types.lookup b = some (mkRefTd a) →
      resolve_type (f + 8) ⟨types, [], []⟩ a =
        (.ok .any, ⟨types, [(a, .any), (b, .any)], []⟩)) :=
  ⟨resolve_type_stacked, resolve_type_cycle_core⟩

/-- Witness for C2 on the concrete registry `0 = newtype(1)`,
`1 = newtype(0)` and a concrete stacked id. -/
theorem resolve_type_cycle_behaviour_witness :
    resolve_type 0 ⟨[], [], [7]⟩ 7 = (.ok .any, ⟨[], [], [7]⟩) ∧
    resolve_type 8 ⟨[(0, mkRefTd 1), (1, mkRefTd 0)], [], []⟩ 0 =
      (.ok .any,
       ⟨[(0, mkRefTd 1), (1, mkRefTd 0)], [(0, .any), (1, .any)], []⟩) :=
  ⟨resolve_type_cycle_behaviour.1 0 ⟨[], [], [7]⟩ 7 rfl rfl,
   resolve_type_cycle_behaviour.2 0 [(0, mkRefTd 1), (1, mkRefTd 0)] 0 1
     (by decide) (by decide) (by decide) rfl rfl⟩

/-- C1 counterexample: `resolve(id)` is NOT total.  On the empty registry,
resolving id 0 returns the `typeNotFound` error (with the id left on the
in-progress stack), not `Any` — refuting "it returns a ResolvedType and
never returns an error ... if id is absent from the registry ... the
result degrades to `Any`". -/
theorem resolve_type_absent_id_errors_concretely :
    resolve_type 1 ⟨[], [], []⟩ 0 =
      (.error (.typeNotFound 0), ⟨[], [], [0]⟩) := rfl

/-- C1 amended: `resolve(id)` is fallible.  Whenever `id` is uncached, not
currently being resolved, and absent from the registry, the first call
returns a `typeNotFound` error (leaving the id pushed on the in-progress
stack) instead of degrading to `Any`; only cyclic references degrade to
`Any` (see the cycle-guard theorem). -/
theorem resolve_type_absent_id_error (f : Nat) (st : ResolverState) (id : Nat)
    (hc : st.resolved_cache.lookup id = none)
    (hs : st.resolving_stack.contains id = false)
    (ht : st.types.lookup id = none) :
    resolve_type (f + 1) st id =
      (.error (.typeNotFound id),
       { st with resolving_stack := id :: st.resolving_stack }) := by
  rw [resolve_type, hc, hs]
  show (match List.lookup id st.types with
    | none => _
    | some type_def => _) = _
  rw [ht]

/-- Witness for the C1 amended theorem at a concrete registry. -/
theorem resolve_type_absent_id_error_witness :
    resolve_type 1 ⟨[(5, Json.null)], [], []⟩ 0 =
      (.error (.typeNotFound 0), ⟨[(5, Json.null)], [], [0]⟩) :=
  resolve_type_absent_id_error 0 ⟨[(5, Json.null)], [], []⟩ 0 rfl rfl rfl

/-- C3 counterexample: registry construction does NOT fail when an entry's
id is not representable as u32.  The id `4294967296 = 2^32` is readable
by `as_u64`, so `new` succeeds and silently truncates the id to 0
(`as u32` cast) — refuting "fails ... when ... an entry's id is not
representable as the TypeId integer type (u32)". -/
theorem new_truncates_ids_beyond_u32 :
    TypeResolver.new (.arr [.obj [("id", .num 4294967296), ("type", .obj [])]]) =
      .ok ⟨[(0, .obj [])], [], []⟩ ∧
    TypeResolver.new (.arr [.obj [("id", .num 4294967296), ("type", .obj [])]]) ≠
      .error .typeEntryMissingId :=
  ⟨rfl, fun h => Except.noConfusion h⟩

/-- C4: every ≤32-bit fixed-width integer and bool/char/str resolves to a
single native-safe scalar primitive, and every 64/128/256-bit integer
(signed or unsigned) resolves to the alternation
`string | number | bigint`, never to any single primitive. -/
theorem resolve_primitive_width_mapping :
    resolve_primitive "bool" = .ok (.primitive "boolean") ∧
    resolve_primitive "char" = .ok (.primitive "string") ∧
    resolve_primitive "str" = .ok (.primitive "string") ∧
    resolve_primitive "u8" = .ok (.primitive "number") ∧
    resolve_primitive "u16" = .ok (.primitive "number") ∧
    resolve_primitive "u32" = .ok (.primitive "number") ∧
    resolve_primitive "i8" = .ok (.primitive "number") ∧
    resolve_primitive "i16" = .ok (.primitive "number") ∧
    resolve_primitive "i32" = .ok (.primitive "number") ∧
    resolve_primitive "u64" =
      .ok (.or [.primitive "string", .primitive "number", .primitive "bigint"]) ∧
    resolve_primitive "u128" =
      .ok (.or [.primitive "string", .primitive "number", .primitive "bigint"]) ∧
    resolve_primitive "u256" =
      .ok (.or [.primitive "string", .primitive "number", .primitive "bigint"]) ∧
    resolve_primitive "i64" =
      .ok (.or [.primitive "string", .primitive "number", .primitive "bigint"]) ∧
    resolve_primitive "i128" =
      .ok (.or [.primitive "string", .primitive "number", .primitive "bigint"]) ∧
    resolve_primitive "i256" =
      .ok (.or [.primitive "string", .primitive "number", .primitive "bigint"]) ∧
    (∀ s, resolve_primitive "u64" ≠ .ok (.primitive s)) ∧
    (∀ s, resolve_primitive "u128" ≠ .ok (.primitive s)) ∧
    (∀ s, resolve_primitive "u256" ≠ .ok (.primitive s)) ∧
    (∀ s, resolve_primitive "i64" ≠ .ok (.primitive s)) ∧
    (∀ s, resolve_primitive "i128" ≠ .ok (.primitive s)) ∧
    (∀ s, resolve_primitive "i256" ≠ .ok (.primitive s)) := by
  refine ⟨rfl, rfl, rfl, rfl, rfl, rfl, rfl, rfl, rfl, rfl, rfl, rfl, rfl,
    rfl, rfl, ?_, ?_, ?_, ?_, ?_, ?_⟩ <;>
  · intro s h
    have h' : (Except.ok (TypeScriptType.or [.primitive "string",
        .primitive "number", .primitive "bigint"]) :
        Except ResolveError TypeScriptType) = .ok (.primitive s) := h
    injection h' with h2
    exact TypeScriptType.noConfusion h2

/-- Witness for C4: the big-integer alternation is not the `number`
primitive. -/
theorem resolve_primitive_width_mapping_witness :
    resolve_primitive "u64" ≠ .ok (.primitive "number") :=
  resolve_primitive_width_mapping.2.2.2.2.2.2.2.2.2.2.2.2.2.2.2.1 "number"

/-- C5: on the spec's scenario registry (`0 = Option<u32>` with
`params = [{type: 1}]`, `1 = u32`, `2 = Option` with params omitted),
`resolve(0)` is `Optional(number)`, `resolve(2)` is the fallback
`Any | null`, and the two outcomes are structurally distinct. -/
theorem option_u32_scenario :
    TypeResolver.new optMeta = .ok optState ∧
    (resolve_type 8 optState 0).1 = .ok (.optional (.primitive "number")) ∧
    (resolve_type 8 optState 2).1 = .ok (.or [.any, .primitive "null"]) ∧
    TypeScriptType.optional (.primitive "number") ≠ .or [.any, .primitive "null"] :=
  ⟨rfl, rfl, rfl, fun h => TypeScriptType.noConfusion h⟩

/-- Witness for C5, exercising the distinguishability conjunct. -/
theorem option_u32_scenario_witness :
    TypeScriptType.optional (.primitive "number") ≠ .or [.any, .primitive "null"] :=
  option_u32_scenario.2.2.2

/-- C7: (i) a composite with a single unnamed field resolves exactly as
that field's type id — result and state alike, hence not a one-element
tuple; (ii) a composite whose fields are all unnamed resolves to the
Tuple of the resolved fields in declared order; (iii) a composite with
named fields resolves to a named Interface preserving declared field
order and names, the name being the last path segment when one exists
(`structName`). -/
theorem composite_resolution_shapes :
    (∀ f st x path, x < 4294967296 →
      resolve_composite (f + 2) st (mkCompositeUnnamed [x]) path =
        resolve_type f st x) ∧
    (∀ f st s1 s2 x y tx ty path, x < 4294967296 → y < 4294967296 →
      resolve_type (f + 1) st x = (.ok tx, s1) →
      resolve_type f s1 y = (.ok ty, s2) →
      resolve_composite (f + 3) st (mkCompositeUnnamed [x, y]) path =
        (.ok (.tuple [tx, ty]), s2)) ∧
    (∀ f st s1 s2 n1 n2 x y tx ty path,
      x < 4294967296 → y < 4294967296 →
      resolve_type (f + 1) st x = (.ok tx, s1) →
      resolve_type f s1 y = (.ok ty, s2) →
      resolve_composite (f + 3) st (mkCompositeNamed [(n1, x), (n2, y)]) path =
        (.ok (.interface (structName path 2) [(n1, tx), (n2, ty)] []), s2)) ∧
    (∀ path nm arity, path.getLast? = some nm → structName path arity = nm) := by
  refine ⟨?_, ?_, ?_, ?_⟩
  · intro f st x path hx
    rcases hres : resolve_type f st x with ⟨r, st'⟩
    cases r with
    | error e => exact resolve_composite_single_err f st st' x e path hx hres
    | ok t => exact resolve_composite_single_ok f st st' x t path hx hres
  · intro f st s1 s2 x y tx ty path hx hy h1 h2
    exact resolve_composite_pair_unnamed_ok f st s1 s2 x y tx ty path hx hy h1 h2
  · intro f st s1 s2 n1 n2 x y tx ty path hx hy h1 h2
    exact resolve_composite_pair_named_ok f st s1 s2 n1 n2 x y tx ty path
      hx hy h1 h2
  · intro path nm arity h
    simp [structName, h]

/-- Witness for C7 on the registry `1 = u32`. -/
theorem composite_resolution_shapes_witness :
    resolve_composite 4 regU32 (mkCompositeUnnamed [1]) [] =
      resolve_type 2 regU32 1 ∧
    resolve_composite 4 regU32 (mkCompositeUnnamed [1, 1]) [] =
      (.ok (.tuple [.primitive "number", .primitive "number"]), regU32r) ∧
    resolve_composite 4 regU32 (mkCompositeNamed [("a", 1), ("b", 1)]) ["T"] =
      (.ok (.interface "T"
        [("a", .primitive "number"), ("b", .primitive "number")] []), regU32r) ∧
    structName ["T"] 2 = "T" :=
  ⟨composite_resolution_shapes.1 2 regU32 1 [] (by decide),
   composite_resolution_shapes.2.1 1 regU32 regU32r regU32r 1 1
     (.primitive "number") (.primitive "number") [] (by decide) (by decide)
     rfl rfl,
   composite_resolution_shapes.2.2.1 1 regU32 regU32r regU32r "a" "b" 1 1
     (.primitive "number") (.primitive "number") ["T"] (by decide) (by decide)
     rfl rfl,
   composite_resolution_shapes.2.2.2 ["T"] "T" 2 rfl⟩

/-- C8 counterexample: the byte-buffer-or-string alternation is NOT
reserved to byte-sized elements.  In a registry where type 0 is
`[u32; 32]` (element `u32`, four bytes wide, resolving to the `number`
primitive), `resolve(0)` still yields `Uint8Array | string` — refuting
"exactly when the declared length is 32 and the element type is
byte-sized". -/
theorem resolve_array_u32_len32_special_cased :
    arrState.types.lookup 1 = some tdU32 ∧
    (resolve_type 8 arrState 1).1 = .ok (.primitive "number") ∧
    (resolve_type 8 arrState 0).1 =
      .ok (.or [.reference "Uint8Array", .primitive "string"]) :=
  ⟨rfl, rfl, rfl⟩


/-- C6: a type whose path is exactly `Result` resolves to a Union named
`Result` with exactly two variants, `Ok` then `Err` in that order, `Ok`
carrying one field `value` holding the resolved first parameter and `Err`
one field `error` holding the resolved second parameter; a missing
parameter slot (second-only or both) degrades to `Any`. -/
theorem result_path_resolution :
    (∀ f st s1 s2 x y tx ty, x < 4294967296 → y < 4294967296 →
      resolve_type (f + 1) st x = (.ok tx, s1) →
      resolve_type f s1 y = (.ok ty, s2) →
      resolve_type_def (f + 6) st (mkResultTd [mkParam x, mkParam y]) =
        (.ok (.union "Result"
          [mkVariant "Ok" [(some "value", tx)],
           mkVariant "Err" [(some "error", ty)]] []), s2)) ∧
    (∀ f st s1 x tx, x < 4294967296 →
      resolve_type (f + 1) st x = (.ok tx, s1) →
      resolve_type_def (f + 6) st (mkResultTd [mkParam x]) =
        (.ok (.union "Result"
          [mkVariant "Ok" [(some "value", tx)],
           mkVariant "Err" [(some "error", .any)]] []), s1)) ∧
    (∀ f st,
      resolve_type_def (f + 6) st (mkResultTd []) =
        (.ok (.union "Result"
          [mkVariant "Ok" [(some "value", .any)],
           mkVariant "Err" [(some "error", .any)]] []), st)) :=
  ⟨fun f st s1 s2 x y tx ty hx hy h1 h2 =>
    result_td_both_ok f st s1 s2 x y tx ty hx hy h1 h2,
   fun f st s1 x tx hx h1 => result_td_missing_snd f st s1 x tx hx h1,
   fun f st => result_td_empty f st⟩

/-- Witness for C6 on the registry `1 = u32`: `Result<u32, u32>` and the
no-params degradation. -/
theorem result_path_resolution_witness :
    resolve_type_def 7 regU32 (mkResultTd [mkParam 1, mkParam 1]) =
      (.ok (.union "Result"
        [mkVariant "Ok" [(some "value", .primitive "number")],
         mkVariant "Err" [(some "error", .primitive "number")]] []),
       regU32r) ∧
    resolve_type_def 7 regU32 (mkResultTd []) =
      (.ok (.union "Result"
        [mkVariant "Ok" [(some "value", .any)],
         mkVariant "Err" [(some "error", .any)]] []), regU32) :=
  ⟨result_path_resolution.1 1 regU32 regU32r regU32r 1 1
     (.primitive "number") (.primitive "number") (by decide) (by decide)
     rfl rfl,
   result_path_resolution.2.2 1 regU32⟩

/-- C8 amended: for every fixed-length array type definition, resolve
returns the byte-buffer-or-string alternation exactly when the declared
length is 32 and the element type RESOLVES to the `number` primitive
(which covers all integer widths up to 32 bits, not only byte-sized
elements); for every other length or element resolution it returns an
Array of the resolved element type, with the length not encoded in the
target type. -/
theorem resolve_array_behaviour (f : Nat) (st st' : ResolverState)
    (x n : Nat) (v : TypeScriptType)
    (hx : x < 4294967296) (hn : n < 18446744073709551616)
    (h : resolve_type f st x = (.ok v, st')) :
    resolve_array (f + 1) st (mkArrayTd x n) =
      (.ok (if n == 32 && isNumberPrim v then
        .or [.reference "Uint8Array", .primitive "string"]
      else .array v), st') := by
  have hidx : ((mkArrayTd x n).index "type").asU64 = some x := by
    show (Json.num (x : Int)).asU64 = some x
    exact asU64_natCast x (by omega)
  have hlenv : (((mkArrayTd x n).index "len").asU64).getD 0 = n := by
    show ((Json.num (n : Int)).asU64).getD 0 = n
    rw [asU64_natCast n hn]
    rfl
  rw [resolve_array, hidx]
  split
  · rename_i heq
    exact Option.noConfusion heq
  · rename_i tid heq
    obtain rfl : x = tid := Option.some.inj heq
    rw [toU32_small hx, h, hlenv]
    show (if (n == 32 && isNumberPrim v) = true then
        ((Except.ok (.or [.reference "Uint8Array", .primitive "string"]) :
          Except ResolveError TypeScriptType), st')
      else (.ok (.array v), st')) =
      (.ok (if (n == 32 && isNumberPrim v) = true then
        .or [.reference "Uint8Array", .primitive "string"]
      else .array v), st')
    split
    next hc => rfl
    next hc => rfl

/-- Witness for the C8 amended theorem on the registry `1 = u32`:
`[u32; 32]` hits the special case, `[u32; 10]` does not. -/
theorem resolve_array_behaviour_witness :
    resolve_array 3 regU32 (mkArrayTd 1 32) =
      (.ok (.or [.reference "Uint8Array", .primitive "string"]), regU32r) ∧
    resolve_array 3 regU32 (mkArrayTd 1 10) =
      (.ok (.array (.primitive "number")), regU32r) :=
  ⟨(resolve_array_behaviour 2 regU32 regU32r 1 32 (.primitive "number")
      (by decide) (by decide) rfl).trans rfl,
   (resolve_array_behaviour 2 regU32 regU32r 1 10 (.primitive "number")
      (by decide) (by decide) rfl).trans rfl⟩

/-- C3 amended: `new(raw_types_array)` fails with `typesNotArray` exactly
when the types section is not an array, and with `typeEntryMissingId`
exactly when some entry's `id` is not an integer readable as `u64`;
otherwise it succeeds, mapping each entry's id TRUNCATED to `u32` to the
entry's nested type-definition object (prepend order, so later entries
shadow earlier ones on truncated-id collisions) — ids beyond `u32` do not
fail, they are silently truncated (see the counterexample). -/
theorem new_parse_contract :
    (∀ j, j.asArray = none → TypeResolver.new j = .error .typesNotArray) ∧
    (∀ es, es.all entryHasId = false →
      TypeResolver.new (.arr es) = .error .typeEntryMissingId) ∧
    (∀ es, es.all entryHasId = true →
      TypeResolver.new (.arr es) =
        .ok ⟨(es.map fun e => (entryKey e, entryVal e)).reverse, [], []⟩) := by
  refine ⟨?_, ?_, ?_⟩
  · intro j hj
    rw [TypeResolver.new, hj]
  · intro es hes
    rw [TypeResolver.new, show (Json.arr es).asArray = some es from rfl]
    show (match buildTypes es [] with
      | Except.error e => (Except.error e : Except ResolveError ResolverState)
      | Except.ok types => .ok ⟨types, [], []⟩) = _
    rw [buildTypes_err es [] hes]
  · intro es hes
    rw [TypeResolver.new, show (Json.arr es).asArray = some es from rfl]
    show (match buildTypes es [] with
      | Except.error e => (Except.error e : Except ResolveError ResolverState)
      | Except.ok types => .ok ⟨types, [], []⟩) = _
    rw [buildTypes_ok es [] hes, List.append_nil]

/-- Witness for the C3 amended theorem: a non-array, an entry without id,
and a well-formed singleton registry. -/
theorem new_parse_contract_witness :
    TypeResolver.new (.str "x") = .error .typesNotArray ∧
    TypeResolver.new (.arr [.obj []]) = .error .typeEntryMissingId ∧
    TypeResolver.new (.arr [.obj [("id", .num 7), ("type", tdU32)]]) =
      .ok ⟨[(7, tdU32)], [], []⟩ :=
  ⟨new_parse_contract.1 (.str "x") rfl,
   new_parse_contract.2.1 [.obj []] (by decide),
   (new_parse_contract.2.2 [.obj [("id", .num 7), ("type", tdU32)]]
     (by decide)).trans (by rfl)⟩

/-- C9: resolution is deterministic and idempotent.  Whenever a resolve
call succeeds with value `v` and final state `st'`, resolving the same id
again on that same resolver — at ANY fuel — returns the structurally
identical value `v` and leaves the state unchanged (the embedding is a
pure function of the state, so two calls from the same state are
trivially equal; this theorem gives the stronger sequential form for the
state the first call actually produced). -/
theorem resolve_type_idempotent (f g : Nat) (st st' : ResolverState)
    (id : Nat) (v : TypeScriptType)
    (h : resolve_type f st id = (.ok v, st')) :
    resolve_type g st' id = (.ok v, st') := by
  rcases resolve_type_ok_shape f st st' id v h with hc | ⟨rfl, rfl, hc, hs⟩
  · exact resolve_type_cache_hit g st' id v hc
  · exact resolve_type_stacked g st' id hc hs

/-- Witness for C9 on the registry `1 = u32` (a 32-bit primitive): the
first call memoises `number`, the second call reproduces it. -/
theorem resolve_type_idempotent_witness :
    resolve_type 2 regU32 1 = (.ok (.primitive "number"), regU32r) ∧
    resolve_type 5 regU32r 1 = (.ok (.primitive "number"), regU32r) :=
  ⟨rfl, resolve_type_idempotent 2 5 regU32 regU32r 1 (.primitive "number") rfl⟩

/-- C10: whenever `resolve_type` returns an error, the id is still on the
resolver's in-progress stack in the returned state and has not been
cached — the state is not restored on the error path — and consequently
EVERY subsequent `resolve_type` call for that id on that same resolver,
at any fuel, hits the cycle guard and returns `Any` successfully instead
of reproducing the error. -/
theorem resolve_type_error_not_restored (f : Nat) (st st' : ResolverState)
    (id : Nat) (e : ResolveError)
    (h : resolve_type f st id = (.error e, st')) :
    id ∈ st'.resolving_stack ∧
    st'.resolved_cache.lookup id = none ∧
    ∀ g, resolve_type g st' id = (.ok .any, st') := by
  cases hc : st.resolved_cache.lookup id with
  | some c =>
    have h2 := (resolve_type_cache_hit f st id c hc).symm.trans h
    injection h2 with hA hB
    exact Except.noConfusion hA
  | none =>
    cases hs : st.resolving_stack.contains id with
    | true =>
      have h2 := (resolve_type_stacked f st id hc hs).symm.trans h
      injection h2 with hA hB
      exact Except.noConfusion hA
    | false =>
      have key : ∀ s2 : ResolverState, id ∈ s2.resolving_stack →
          s2.resolved_cache.lookup id = none →
          st' = s2 →
          id ∈ st'.resolving_stack ∧
          st'.resolved_cache.lookup id = none ∧
          ∀ g, resolve_type g st' id = (.ok .any, st') := by
        intro s2 hmem hcache hst
        subst hst
        exact ⟨hmem, hcache,
          fun g => resolve_type_stacked g _ id hcache (contains_of_mem hmem)⟩
      cases f with
      | zero =>
        have h2 := (resolve_type_zero_fresh st id hc hs).symm.trans h
        injection h2 with hA hB
        exact key { st with resolving_stack := id :: st.resolving_stack }
          (List.mem_cons_self id st.resolving_stack) hc hB.symm
      | succ f =>
        cases ht : st.types.lookup id with
        | none =>
          have h2 := (resolve_type_fresh_absent f st id hc hs ht).symm.trans h
          injection h2 with hA hB
          exact key { st with resolving_stack := id :: st.resolving_stack }
            (List.mem_cons_self id st.resolving_stack) hc hB.symm
        | some td =>
          rcases hd : resolve_type_def f
              { st with resolving_stack := id :: st.resolving_stack } td
            with ⟨r, st2⟩
          have h12 : StackInv
              { st with resolving_stack := id :: st.resolving_stack } st2 := by
            have hi := (stackInv_all f).2.1
              { st with resolving_stack := id :: st.resolving_stack } td
            rw [hd] at hi
            exact hi
          cases r with
          | ok result =>
            have h2 := (resolve_type_fresh_ok f st id td result st2
              hc hs ht hd).symm.trans h
            injection h2 with hA hB
            exact Except.noConfusion hA
          | error e2 =>
            have h2 := (resolve_type_fresh_err f st id td e2 st2
              hc hs ht hd).symm.trans h
            injection h2 with hA hB
            have hmem : id ∈ st2.resolving_stack :=
              h12.1 id (List.mem_cons_self id st.resolving_stack)
            have hcache : st2.resolved_cache.lookup id = none :=
              h12.2 id (List.mem_cons_self id st.resolving_stack) hc
            exact key st2 hmem hcache hB.symm

/-- Witness for C10: on the empty registry, resolving id 0 fails with
`typeNotFound`, leaves 0 on the stack uncached, and the subsequent call
returns `Any` with the state unchanged. -/
theorem resolve_type_error_not_restored_witness :
    0 ∈ (⟨[], [], [0]⟩ : ResolverState).resolving_stack ∧
    (⟨[], [], [0]⟩ : ResolverState).resolved_cache.lookup 0 = none ∧
    resolve_type 3 ⟨[], [], [0]⟩ 0 = (.ok .any, ⟨[], [], [0]⟩) := by
  have h := resolve_type_error_not_restored 1 ⟨[], [], []⟩ ⟨[], [], [0]⟩ 0
    (.typeNotFound 0) rfl
  exact ⟨h.1, h.2.1, h.2.2 3⟩

end GlinForge
